import Mathlib

/-!
# Momonga broker engine: a shallow embedding

The definitions follow `server/engine.go` and `common/myconnection.go`
statement by statement.  Go strings are `String` (inspected through `.data`),
byte slices are `List Nat`, Go maps are association lists, a Go channel is the
list of values sent on it (oldest first), and a runtime panic is `none`.  A send
on a buffered channel is taken not to block; the one unbuffered channel,
`Closed` of a connection, is received by the write loop only, and a send that
finds the loop gone is told apart where the sources send twice in a row
(`Handshake.closeTwice`).
Sessions are held by value in the session table, so a function that mutates a
session through a pointer returns the new value and writes it back under its key.
-/

namespace Momonga

/-! ## Packets -/

/-- The global feature-flag map `Mflags`, restricted to the two keys the engine reads. -/
structure Flags where
  experimental_qos1 : Bool
  experimental_newid : Bool
deriving DecidableEq, Repr

/-- Values the engine stores in an `Opaque` field (`interface{}`): nothing, a session
(named by its key in the session table), a channel, or the registered packet itself. -/
inductive OpaqueValue where
  | null
  | connection (clientId : String)
  | channel
  | packet
deriving DecidableEq, Repr

/-- The fields of `codec.PublishMessage` that the engine reads or writes. -/
structure PublishMessage where
  TopicName : String
  Payload : List Nat
  QosLevel : Int
  Retain : Int
  Dupe : Bool
  PacketIdentifier : Nat
  Opaque : OpaqueValue
deriving DecidableEq, Repr

/-- The result of `codec.NewPublishMessage()`: every field at its zero value. -/
def NewPublishMessage : PublishMessage :=
  { TopicName := "", Payload := [], QosLevel := 0, Retain := 0, Dupe := false,
    PacketIdentifier := 0, Opaque := OpaqueValue.null }

/-- The fields of `codec.WillMessage` read by `SendWillMessage`. -/
structure WillMessage where
  Topic : String
  Message : String
  Qos : Nat
deriving DecidableEq, Repr

/-- One `(filter, requested-qos)` entry of a SUBSCRIBE or UNSUBSCRIBE payload. -/
structure SubscribePayload where
  TopicPath : String
  RequestedQos : Nat
deriving DecidableEq, Repr

structure SubscribeMessage where
  PacketIdentifier : Nat
  Payload : List SubscribePayload
deriving DecidableEq, Repr

structure SubackMessage where
  PacketIdentifier : Nat
  Qos : List Nat
deriving DecidableEq, Repr

structure ConnackMessage where
  Reserved : Nat
  ReturnCode : Nat
deriving DecidableEq, Repr

/-- The fields of `codec.ConnectMessage` read by `checkVersion` and `Handshake`. -/
structure ConnectMessage where
  Magic : List Nat
  Version : Nat
  Flag : Nat
  Will : Option WillMessage
  CleanSession : Bool
  Identifier : String
  KeepAlive : Nat
deriving DecidableEq, Repr

/-- The packets that travel through the queues of the engine (`codec.Message`). -/
inductive Message where
  | connack (m : ConnackMessage)
  | publish (m : PublishMessage)
  | puback (id : Nat)
  | pubrec (id : Nat)
  | pubrel (id : Nat)
  | pubcomp (id : Nat)
  | subscribe (m : SubscribeMessage)
  | suback (m : SubackMessage)
  | unsuback (id : Nat)
  | pingreq
  | pingresp
  | disconnect
deriving DecidableEq, Repr

/-- Connection states (`STATE_INIT` ... `STATE_CLOSED`). -/
inductive State where
  | INIT
  | CONNECTING
  | CONNECTED
  | CLOSED
deriving DecidableEq, Repr

/-- A subscription record (`SubscribeSet`), as built in `Subscribe`. -/
structure SubscribeSet where
  TopicFilter : String
  ClientId : String
  QoS : Int
deriving DecidableEq, Repr

/-! ## Codec and retained store -/

/-- Modelled from the spec: the packet codec (`codec.WriteMessageTo`, `codec.ParseMessage`
and `codec.CopyPublishMessage` are not among the sources).  §6 fixes a stored value as the
exact byte encoding of the PUBLISH and §8.1 makes decoding the inverse of encoding, so a
byte string written by the codec is represented by the packet it encodes. -/
structure Serialized where
  packet : Message
deriving DecidableEq, Repr

/-- Modelled from the spec: `codec.WriteMessageTo` into a fresh buffer (§4.1 `encode`). -/
def WriteMessageTo (m : Message) : Serialized := ⟨m⟩

/-- Modelled from the spec: `codec.ParseMessage` on stored bytes (§4.1 `decode`, the
inverse of `encode`); `none` stands for a decoding error. -/
def ParseMessage (d : Serialized) : Option Message := some d.packet

/-- Modelled from the spec: `codec.CopyPublishMessage` ("copy the publish", §4.7);
`none` stands for the error result. -/
def CopyPublishMessage (m : PublishMessage) : Option PublishMessage := some m

/-- Modelled from the spec: the retained store (`datastore.Datastore`, §4.3), a key/value
map from topic name to serialized PUBLISH, iterated in list order. -/
abbrev Datastore := List (String × Serialized)

/-- Modelled from the spec: `datastore.NewMemstore()`, the empty store. -/
def NewDatastore : Datastore := []

/-- Modelled from the spec: `put(topic, bytes)` of §4.3, overwriting an existing entry. -/
def Datastore.Put (ds : Datastore) (k : String) (v : Serialized) : Datastore :=
  if ds.any (fun e => decide (e.1 = k)) then
    ds.map (fun e => if e.1 = k then (k, v) else e)
  else ds ++ [(k, v)]

/-- Modelled from the spec: `delete(topic)` of §4.3. -/
def Datastore.Del (ds : Datastore) (k : String) : Datastore :=
  ds.filter (fun e => decide (e.1 ≠ k))

/-- Modelled from the spec: `get(topic)` of §4.3. -/
def Datastore.Get (ds : Datastore) (k : String) : Option Serialized :=
  (ds.find? (fun e => decide (e.1 = k))).map Prod.snd

/-! ## Regular expressions -/

/-- Go's `regexp` package as `RetainMatch` uses it: `Compile` gives the compiled
expression, represented by its `MatchString` function, or `none` for a compile error. -/
structure Regexp where
  Compile : String → Option (String → Bool)

/-- The pieces of the patterns that `RetainMatch` builds from a filter without regular
expression metacharacters: a literal character, `[^/]+` and `.*`. -/
inductive RxAtom where
  | lit (c : Char)
  | notSlashPlus
  | dotStar
deriving DecidableEq, Repr

/-- Characters with a special meaning in Go regular expression syntax. -/
def rxMeta : List Char :=
  ['\\', '.', '+', '*', '?', '(', ')', '|', '[', ']', '{', '}', '^', '$']

/-- Reads a pattern made of literals, `[^/]+` and `.*`; any other use of a metacharacter
is outside the fragment and gives `none`. -/
def rxParse : List Char → Option (List RxAtom)
  | [] => some []
  | '[' :: '^' :: '/' :: ']' :: '+' :: rest => (rxParse rest).map (RxAtom.notSlashPlus :: ·)
  | '.' :: '*' :: rest => (rxParse rest).map (RxAtom.dotStar :: ·)
  | c :: rest => if c ∈ rxMeta then none else (rxParse rest).map (RxAtom.lit c :: ·)

/-- Repetition: `k` holds after skipping some number of leading characters that satisfy `p`. -/
def rxStar (p : Char → Bool) (k : List Char → Bool) : List Char → Bool
  | [] => k []
  | c :: cs => k (c :: cs) || (p c && rxStar p k cs)

/-- Whether the atoms match some leading part of the input
(Go: `.` excludes newline, a negated class includes it). -/
def rxMatchHere : List RxAtom → List Char → Bool
  | [] => fun _ => true
  | RxAtom.lit c :: as => fun s =>
      match s with
      | [] => false
      | x :: xs => decide (x = c) && rxMatchHere as xs
  | RxAtom.notSlashPlus :: as => fun s =>
      match s with
      | [] => false
      | x :: xs => decide (x ≠ '/') && rxStar (fun y => decide (y ≠ '/')) (rxMatchHere as) xs
  | RxAtom.dotStar :: as => fun s => rxStar (fun y => decide (y ≠ '\n')) (rxMatchHere as) s

/-- The unanchored search of `MatchString`: the atoms match at some position of the input. -/
def rxSearch (as : List RxAtom) (s : List Char) : Bool :=
  s.tails.any (rxMatchHere as)

/-- Function `regexp` on the fragment of `rxParse`.  Patterns outside the fragment are not
covered: `Compile` answers `none` for them, and this instance is only run on filters
without metacharacters. -/
def goRegexp : Regexp :=
  { Compile := fun pat => (rxParse pat.data).map (fun as s => rxSearch as s.data) }

/-! ## RetainMatch -/

/-- The call `strings.Replace(s, old, new, -1)` for a one-character `old`. -/
def stringsReplace (s : String) (old : Char) (new : String) : String :=
  ⟨s.data.flatMap (fun c => if c = old then new.data else [c])⟩

/-- The slice `s[0:1]` compared with a one-character ASCII string: the first byte of a
UTF-8 string is an ASCII character exactly when its first character is that character. -/
def firstIs (s : String) (c : Char) : Bool :=
  decide (s.data.head? = some c)

/-- The iterator loop of `RetainMatch`.  `reg` is `none` when `regexp.Compile` failed:
the code only prints the error, so the first `reg.MatchString` dereferences nil. -/
def RetainMatch.loop (reg : Option (String → Bool)) (all : Bool) :
    List (String × Serialized) → Option (List PublishMessage)
  | [] => some []
  | (k, data) :: rest =>
    if all && (decide (0 < k.data.length) && firstIs k '$') then
      RetainMatch.loop reg all rest
    else
      match reg with
      | none => none
      | some m =>
        if m k then
          match ParseMessage data with
          | some (Message.publish v) => (RetainMatch.loop reg all rest).map (v :: ·)
          | _ => RetainMatch.loop reg all rest
        else RetainMatch.loop reg all rest

/-- Function `Momonga.RetainMatch`: the retained messages whose key matches the filter, or
`none` when the call panics (`orig[0:1]` on an empty filter, or a nil `reg`). -/
def RetainMatch (rx : Regexp) (ds : Datastore) (topic : String) : Option (List PublishMessage) :=
  let orig := topic
  let topic := stringsReplace topic '+' "[^/]+"
  let topic := stringsReplace topic '#' ".*"
  let reg := rx.Compile topic
  if orig.data.length < 1 then none
  else
    let all := firstIs orig '#' || firstIs orig '+'
    RetainMatch.loop reg all ds

/-! ## Go maps -/

/-- Lookup in a Go map held as an association list. -/
def mapGet {α : Type} (m : List (String × α)) (k : String) : Option α :=
  (m.find? (fun e => decide (e.1 = k))).map Prod.snd

/-- Assignment `m[k] = v`: overwrite the entry of `k`, or add one. -/
def mapSet {α : Type} (m : List (String × α)) (k : String) (v : α) : List (String × α) :=
  if m.any (fun e => decide (e.1 = k)) then
    m.map (fun e => if e.1 = k then (k, v) else e)
  else m ++ [(k, v)]

/-- The builtin `delete(m, k)`. -/
def mapDelete {α : Type} (m : List (String × α)) (k : String) : List (String × α) :=
  m.filter (fun e => decide (e.1 ≠ k))

/-! ## Topic matcher -/

/-- The `/`-separated levels of a topic or filter. -/
def splitLevels : List Char → List (List Char)
  | [] => [[]]
  | c :: cs =>
    if c = '/' then [] :: splitLevels cs
    else
      match splitLevels cs with
      | [] => [[c]]
      | l :: ls => (c :: l) :: ls

/-- Level-by-level comparison of §4.2: `+` stands for any single level, `#` ends the
comparison successfully, every other level must be equal. -/
def levelsMatch : List (List Char) → List (List Char) → Bool
  | [], ts => ts.isEmpty
  | f :: fs, ts =>
    if f = ['#'] then true
    else
      match ts with
      | [] => false
      | t :: ts' => (decide (f = ['+']) || decide (f = t)) && levelsMatch fs ts'

/-- Whether a topic matches a filter under the rules of §4.2 (MQTT-3.1.1 §4.7, without
the `$` rule MQTT-4.7.2-1); an empty topic or filter is invalid and matches nothing. -/
def topicMatches (filter topic : String) : Bool :=
  decide (filter.data ≠ []) && decide (topic.data ≠ []) &&
    levelsMatch (splitLevels filter.data) (splitLevels topic.data)

/-- Modelled from the spec: the topic matcher (`util.Qlobber`, §4.2), the stored
`(filter, record)` pairs in insertion order. -/
abbrev Qlobber := List (String × SubscribeSet)

/-- Modelled from the spec: `add(filter, record)` of §4.2; the records under a filter form a set. -/
def Qlobber.Add (q : Qlobber) (filter : String) (v : SubscribeSet) : Qlobber :=
  if (filter, v) ∈ q then q else q ++ [(filter, v)]

/-- Modelled from the spec: `remove(filter, record)` of §4.2. -/
def Qlobber.Remove (q : Qlobber) (filter : String) (v : SubscribeSet) : Qlobber :=
  q.filter (fun e => decide (e ≠ (filter, v)))

/-- Modelled from the spec: `match(topic)` of §4.2, the records of every stored filter that
the topic matches; the matcher does not look at a leading `$`. -/
def Qlobber.Match (q : Qlobber) (topic : String) : List SubscribeSet :=
  (q.filter (fun e => topicMatches e.1 topic)).map Prod.snd

/-! ## Inflight table -/

/-- An entry of a message table: the pending message, its reference count and the
completion handle. -/
structure MessageContainer where
  Message : Message
  Refcount : Nat
  Opaque : OpaqueValue
deriving DecidableEq, Repr

/-- Modelled from the spec: the inflight table (`util.MessageTable`, §4.4): the last
identifier handed out and the entries by identifier. -/
structure MessageTable where
  Id : Nat
  Hash : List (Nat × MessageContainer)
deriving DecidableEq, Repr

/-- The result of `util.NewMessageTable()`. -/
def NewMessageTable : MessageTable := { Id := 0, Hash := [] }

/-- The search of `new_id`: at most `fuel` candidates after `cur`, cycling in [1, 65535]. -/
def MessageTable.nextFree (used : Nat → Bool) : Nat → Nat → Option Nat
  | 0, _ => none
  | fuel + 1, cur =>
    let next := if 65535 ≤ cur then 1 else cur + 1
    if used next then MessageTable.nextFree used fuel next else some next

/-- Modelled from the spec: `new_id()` of §4.4, a monotonically cycling identifier in
[1, 65535] that skips identifiers in use; `none` when the table is full. -/
def MessageTable.NewId (t : MessageTable) : Option (Nat × MessageTable) :=
  (MessageTable.nextFree (fun i => t.Hash.any (fun e => decide (e.1 = i))) 65535 t.Id).map
    (fun id => (id, { t with Id := id }))

/-- Modelled from the spec: `register(id, message, refcount, opaque)` of §4.4. -/
def MessageTable.Register2 (t : MessageTable) (id : Nat) (m : Message) (count : Nat)
    (o : OpaqueValue) : MessageTable :=
  { t with Hash := (t.Hash.filter (fun e => decide (e.1 ≠ id))) ++
      [(id, { Message := m, Refcount := count, Opaque := o })] }

/-- Modelled from the spec: `Register`, a registration with reference count 1. -/
def MessageTable.Register (t : MessageTable) (id : Nat) (m : Message) (o : OpaqueValue) :
    MessageTable :=
  t.Register2 id m 1 o

/-- Modelled from the spec: `clean()` of §4.4, drop all entries. -/
def MessageTable.Clean (t : MessageTable) : MessageTable := { t with Hash := [] }

/-- Modelled from the spec: `get(id)` of §4.4. -/
def MessageTable.Get (t : MessageTable) (id : Nat) : Option MessageContainer :=
  (t.Hash.find? (fun e => decide (e.1 = id))).map Prod.snd

/-- Modelled from the spec: `remove(id)` of §4.4. -/
def MessageTable.Remove (t : MessageTable) (id : Nat) : MessageTable :=
  { t with Hash := t.Hash.filter (fun e => decide (e.1 ≠ id)) }

/-- Modelled from the spec: `unref(id)` of §4.4: decrement the reference count of the
entry and remove the entry when the count reaches zero; the finish hook acts on the
completion handle only.  An identifier without entry leaves the table as it is. -/
def MessageTable.Unref (t : MessageTable) (id : Nat) : MessageTable :=
  match t.Get id with
  | none => t
  | some c =>
    if c.Refcount - 1 = 0 then t.Remove id
    else
      let hash := t.Hash.map
        (fun e => if e.1 = id then (e.1, { e.2 with Refcount := e.2.Refcount - 1 }) else e)
      { t with Hash := hash }

/-! ## Physical connection (`common/myconnection.go`) -/

/-- The fields of `MyConnection` that carry protocol state.  `Addr` is the identity of the
Go object (sessions refer to their bound connection by it), `Queue` is the list of packets
sent on the outbound channel, `Written` the packets the write loop has serialized to the
stream, and `ClosedSignals` counts the values sent on `Closed`. -/
structure MyConnection where
  Addr : Nat
  Queue : List Message
  Written : List Message
  OfflineQueue : List Message
  MaxOfflineQueue : Nat
  InflightTable : MessageTable
  SubscribeHistory : List (String × Int)
  PingCounter : Int
  Keepalive : Int
  Id : String
  WillMessage : Option WillMessage
  State : State
  CleanSession : Bool
  Connected : Bool
  ClosedSignals : Nat
  KeepLoop : Bool
  guid : Nat
deriving DecidableEq, Repr

/-- Function `NewMyConnection`: the initial field values of a connection. -/
def NewMyConnection (addr : Nat) : MyConnection :=
  { Addr := addr, Queue := [], Written := [], OfflineQueue := [], MaxOfflineQueue := 1000,
    InflightTable := NewMessageTable, SubscribeHistory := [], PingCounter := 0,
    Keepalive := 0, Id := "", WillMessage := none, State := State.INIT,
    CleanSession := true, Connected := false, ClosedSignals := 0, KeepLoop := false,
    guid := 0 }

/-- Function `MyConnection.GetId`. -/
def MyConnection.GetId (flags : Flags) (c : MyConnection) : String :=
  if flags.experimental_newid then c.Id ++ ":" ++ toString c.guid else c.Id

def MyConnection.SetId (c : MyConnection) (id : String) : MyConnection := { c with Id := id }

def MyConnection.SetGuid (c : MyConnection) (id : Nat) : MyConnection := { c with guid := id }

def MyConnection.SetKeepaliveInterval (c : MyConnection) (interval : Int) : MyConnection :=
  { c with Keepalive := interval }

def MyConnection.DisableClearSession (c : MyConnection) : MyConnection :=
  { c with CleanSession := false }

def MyConnection.ShouldClearSession (c : MyConnection) : Bool := c.CleanSession

def MyConnection.SetWillMessage (c : MyConnection) (will : Momonga.WillMessage) : MyConnection :=
  { c with WillMessage := some will }

def MyConnection.HasWillMessage (c : MyConnection) : Bool := c.WillMessage.isSome

def MyConnection.GetState (c : MyConnection) : Momonga.State := c.State

/-- Function `MyConnection.WriteMessageQueue`: send the packet on `Queue`. -/
def MyConnection.WriteMessageQueue (c : MyConnection) (request : Message) : MyConnection :=
  { c with Queue := c.Queue ++ [request] }

/-- Function `MyConnection.Close` when its send on `Closed` is received: the state becomes
CLOSED and the value is handed to the write loop.  `Closed` is unbuffered
(`make(chan bool)`), so the call returns only if the write loop takes the value;
`MyConnection.closeReceived` tells whether it does.  Where the sources close a connection
once in a call (`Handshake` on a connected connection, the end of `HandleConnection`) the
send is taken as received. -/
def MyConnection.Close (c : MyConnection) : MyConnection :=
  { c with State := State.CLOSED, ClosedSignals := c.ClosedSignals + 1 }

/-- Whether a value sent on `Closed` finds its receiver.  The only receiver is the write
loop started by `NewMyConnection`, and its `case <-c.Closed` returns from the loop unless
`KeepLoop` is set: the first value is received, a later one only when `KeepLoop` kept the
loop running.  Otherwise `self.Closed <- true` blocks forever. -/
def MyConnection.closeReceived (c : MyConnection) : Bool :=
  decide (c.ClosedSignals = 0) || c.KeepLoop

/-- The connection while `MyConnection.Close` is stuck in its send: the state is already
CLOSED, the value has not been taken. -/
def MyConnection.closeBlocked (c : MyConnection) : MyConnection :=
  { c with State := State.CLOSED }

/-- The default `disconnect` event handler installed by `NewMyConnection`. -/
def MyConnection.onDisconnect (c : MyConnection) : MyConnection :=
  { c with State := State.CLOSED }

/-- The default `publish` event handler installed by `NewMyConnection`. -/
def MyConnection.onPublish (c : MyConnection) (msg : PublishMessage) : MyConnection :=
  if msg.QosLevel = 1 then c.WriteMessageQueue (Message.puback msg.PacketIdentifier)
  else if msg.QosLevel = 2 then c.WriteMessageQueue (Message.pubrec msg.PacketIdentifier)
  else c

/-- The default `puback` event handler. -/
def MyConnection.onPuback (c : MyConnection) (messageId : Nat) : MyConnection :=
  { c with InflightTable := c.InflightTable.Unref messageId }

/-- The default `pubrec` event handler. -/
def MyConnection.onPubrec (c : MyConnection) (messageId : Nat) : MyConnection :=
  { c with Queue := c.Queue ++ [Message.pubrel messageId] }

/-- The default `pubrel` event handler. -/
def MyConnection.onPubrel (c : MyConnection) (messageId : Nat) : MyConnection :=
  let c := { c with Queue := c.Queue ++ [Message.pubcomp messageId] }
  { c with InflightTable := c.InflightTable.Unref messageId }

/-- The default `pubcomp` event handler. -/
def MyConnection.onPubcomp (c : MyConnection) (messageId : Nat) : MyConnection :=
  { c with InflightTable := c.InflightTable.Unref messageId }

/-- The `case msg := <-c.Queue` branch of the write loop started by `NewMyConnection`, for
the packet `msg` drawn from the queue: while CONNECTED or CONNECTING a PUBLISH with qos > 0
gets an identifier from the connection's inflight table and is registered there, then the
packet is written (a PUBLISH with negative qos is logged and dropped); in any other state
the packet is appended to the offline queue.  `none` when no identifier is free. -/
def MyConnection.writeLoopStep (c : MyConnection) (msg : Message) : Option MyConnection :=
  if c.State = State.CONNECTED ∨ c.State = State.CONNECTING then
    match msg with
    | Message.publish sb =>
      if sb.QosLevel < 0 then some c
      else if sb.QosLevel > 0 then
        match c.InflightTable.NewId with
        | none => none
        | some (id, tbl) =>
          let sb := { sb with PacketIdentifier := id }
          let tbl := tbl.Register id (Message.publish sb) OpaqueValue.null
          some { c with InflightTable := tbl, Written := c.Written ++ [Message.publish sb] }
      else some { c with Written := c.Written ++ [msg] }
    | _ => some { c with Written := c.Written ++ [msg] }
  else some { c with OfflineQueue := c.OfflineQueue ++ [msg] }

/-- The number of nanoseconds in `time.Second`. -/
def timeSecond : Int := 1000000000

/-- The read deadline that `MyConnection.ParseMessage` sets on a `net.Conn` before it
reads, `self.Last.Add(time.Duration(int(float64(self.Keepalive)*1.5)) * time.Second)`, with
times in nanoseconds and `last` the value of `self.Last`; `none` when `Keepalive` is not
positive and no deadline is set.  The product `float64(Keepalive)*1.5` is exact for every
keep-alive below 2^52, and `int(...)` drops its fraction. -/
def MyConnection.readDeadline (c : MyConnection) (last : Int) : Option Int :=
  if c.Keepalive > 0 then some (last + Int.tdiv (c.Keepalive * 3) 2 * timeSecond)
  else none

/-! ## Session (`MmuxConnection`) -/

/-- Modelled from the spec: the session (`server.MmuxConnection`, §3 and §4.6; its source
file is not among the sources).  `Connection` is the bound physical connection, if any,
and `Queue` the packets written to the session with `write_message`, in order. -/
structure MmuxConnection where
  Identifier : String
  CleanSession : Bool
  SubscribedTopics : List (String × SubscribeSet)
  OutGoingTable : MessageTable
  Keepalive : Int
  Guid : Nat
  State : State
  Connection : Option Nat
  Queue : List Message
deriving DecidableEq, Repr

/-- Modelled from the spec: `NewMmuxConnection()`, a session with no subscriptions, an
empty inflight table and no bound connection. -/
def NewMmuxConnection : MmuxConnection :=
  { Identifier := "", CleanSession := true, SubscribedTopics := [],
    OutGoingTable := NewMessageTable, Keepalive := 0, Guid := 0, State := State.INIT,
    Connection := none, Queue := [] }

/-- Modelled from the spec: the session's `GetId`, the client-id; under
`experimental.newid` it is tagged with the guid as in `MyConnection.GetId`. -/
def MmuxConnection.GetId (flags : Flags) (m : MmuxConnection) : String :=
  if flags.experimental_newid then m.Identifier ++ ":" ++ toString m.Guid else m.Identifier

def MmuxConnection.SetId (m : MmuxConnection) (id : String) : MmuxConnection :=
  { m with Identifier := id }

def MmuxConnection.SetGuid (m : MmuxConnection) (id : Nat) : MmuxConnection :=
  { m with Guid := id }

def MmuxConnection.SetKeepaliveInterval (m : MmuxConnection) (interval : Int) : MmuxConnection :=
  { m with Keepalive := interval }

def MmuxConnection.SetState (m : MmuxConnection) (s : Momonga.State) : MmuxConnection :=
  { m with State := s }

def MmuxConnection.DisableClearSession (m : MmuxConnection) : MmuxConnection :=
  { m with CleanSession := false }

def MmuxConnection.ShouldClearSession (m : MmuxConnection) : Bool := m.CleanSession

/-- Modelled from the spec: `subscribed_topics()` membership test. -/
def MmuxConnection.IsSubscribed (m : MmuxConnection) (topic : String) : Bool :=
  m.SubscribedTopics.any (fun e => decide (e.1 = topic))

/-- Modelled from the spec: add a filter and its record to the subscription set. -/
def MmuxConnection.AppendSubscribedTopic (m : MmuxConnection) (topic : String)
    (set : SubscribeSet) : MmuxConnection :=
  { m with SubscribedTopics := mapSet m.SubscribedTopics topic set }

/-- Modelled from the spec: `write_message(packet)` of §4.6. -/
def MmuxConnection.WriteMessageQueue (m : MmuxConnection) (request : Message) : MmuxConnection :=
  { m with Queue := m.Queue ++ [request] }

/-- Modelled from the spec: `attach(physical)` of §4.6.  The session is bound to the
connection; subscribe history and the inflight table are preserved only when clean-session
is false.  §4.6 does not say where the session's clean-session flag comes from: §3 (ii)
wants the session of a clean connection destroyed on disconnect, and the only write to the
flag in the sources is the clearing in `Handshake`, so the session is taken here to receive
the flag of the connection it is bound to.  (Closing a previously bound connection acts on
an object outside the session and is not represented.) -/
def MmuxConnection.Attach (m : MmuxConnection) (conn : MyConnection) : MmuxConnection :=
  if conn.ShouldClearSession then
    { m with Connection := some conn.Addr, CleanSession := true, SubscribedTopics := [],
             OutGoingTable := m.OutGoingTable.Clean }
  else
    { m with Connection := some conn.Addr, CleanSession := false }

/-- Modelled from the spec: `detach(physical)` of §4.6; the session stays alive. -/
def MmuxConnection.Detach (m : MmuxConnection) (conn : MyConnection) : MmuxConnection :=
  if m.Connection = some conn.Addr then { m with Connection := none } else m

/-! ## Engine -/

/-- The fields of the `Momonga` struct that carry broker state.  `publishQueue` is the list
of messages sent on the channel; the lock pool only serialises access and is left out. -/
structure Engine where
  publishQueue : List PublishMessage
  OutGoingTable : MessageTable
  InflightTable : List (String × MessageTable)
  Qlobber : Qlobber
  Connections : List (String × MmuxConnection)
  RetryMap : List (String × Unit)
  DataStore : Datastore
  ClientsConnected : Int
  EnableSys : Bool
deriving DecidableEq, Repr

/-- Function `GetConnectionByClientId`: `none` is the "not found" error. -/
def GetConnectionByClientId (self : Engine) (clientId : String) : Option MmuxConnection :=
  mapGet self.Connections clientId

def SetConnectionByClientId (self : Engine) (clientId : String) (conn : MmuxConnection) :
    Engine :=
  { self with Connections := mapSet self.Connections clientId conn }

def RemoveConnectionByClientId (self : Engine) (clientId : String) : Engine :=
  { self with Connections := mapDelete self.Connections clientId }

/-- Function `CleanSubscription`: remove every record of the session's subscription set from the
matcher. -/
def CleanSubscription (self : Engine) (conn : MmuxConnection) : Engine :=
  { self with Qlobber := conn.SubscribedTopics.foldl (fun q tv => q.Remove tv.1 tv.2) self.Qlobber }

/-! ## Subscribe -/

/-- The loop state of `Subscribe`. -/
structure SubscribeLoop where
  self : Engine
  conn : MmuxConnection
  retained : List PublishMessage
  qosBuffer : List Nat
deriving DecidableEq, Repr

/-- The inner loop of `Subscribe` over the retained messages of one filter: each gets a
fresh identifier from the subscriber's table and is registered there. -/
def Subscribe.retainLoop (flags : Flags) :
    List PublishMessage → SubscribeLoop → Option SubscribeLoop
  | [], st => some st
  | r :: rest, st =>
    match st.conn.OutGoingTable.NewId with
    | none => none
    | some (id, tbl) =>
      match CopyPublishMessage r with
      | none => none
      | some pp =>
        let pp := { pp with PacketIdentifier := id }
        let tbl := tbl.Register id (Message.publish pp)
          (OpaqueValue.connection (st.conn.GetId flags))
        Subscribe.retainLoop flags rest
          { st with conn := { st.conn with OutGoingTable := tbl },
                    retained := st.retained ++ [pp] }

/-- The loop of `Subscribe` over the payload entries. -/
def Subscribe.loop (rx : Regexp) (flags : Flags) :
    List SubscribePayload → SubscribeLoop → Option SubscribeLoop
  | [], st => some st
  | payload :: rest, st =>
    if st.conn.IsSubscribed payload.TopicPath then
      Subscribe.loop rx flags rest st
    else
      let set : SubscribeSet :=
        { TopicFilter := payload.TopicPath, ClientId := st.conn.GetId flags,
          QoS := (payload.RequestedQos : Int) }
      let qosBuffer := st.qosBuffer ++ [payload.RequestedQos]
      let self := { st.self with Qlobber := st.self.Qlobber.Add payload.TopicPath set }
      let conn := st.conn.AppendSubscribedTopic payload.TopicPath set
      match RetainMatch rx self.DataStore payload.TopicPath with
      | none => none
      | some retaines =>
        match Subscribe.retainLoop flags retaines
            { self := self, conn := conn, retained := st.retained, qosBuffer := qosBuffer } with
        | none => none
        | some st' => Subscribe.loop rx flags rest st'

/-- Function `Momonga.Subscribe`.  `qosBuffer` starts as `bytes.NewBuffer(make([]byte, len(p.Payload)))`,
a buffer whose initial contents are `len(p.Payload)` zero bytes; `binary.Write` appends to it.
The result is the engine and the session after the call, `none` when the call panics. -/
def Subscribe (rx : Regexp) (flags : Flags) (self : Engine) (p : SubscribeMessage)
    (conn : MmuxConnection) : Option (Engine × MmuxConnection) :=
  let qosBuffer := List.replicate p.Payload.length 0
  match Subscribe.loop rx flags p.Payload
      { self := self, conn := conn, retained := [], qosBuffer := qosBuffer } with
  | none => none
  | some st =>
    let ack : SubackMessage := { PacketIdentifier := p.PacketIdentifier, Qos := st.qosBuffer }
    let conn := st.conn.WriteMessageQueue (Message.suback ack)
    let conn := st.retained.foldl (fun c r => c.WriteMessageQueue (Message.publish r)) conn
    some (st.self, conn)

/-! ## Publish -/

/-- The `[]byte(s)` conversion: the UTF-8 bytes of a string. -/
def bytesOf (s : String) : List Nat :=
  s.data.flatMap (fun c => (String.utf8EncodeChar c).map (fun b => b.toNat))

/-- The "Downgrade QoS" step of the fan-out loop. -/
def SendPublishMessage.downgrade (x : PublishMessage) (subscriberQos : Int) : PublishMessage :=
  if subscriberQos < x.QosLevel then { x with QosLevel := subscriberQos } else x

/-- The end of the fan-out loop body for one target: a copy with qos > 0 gets an identifier
from the engine's outgoing table (and is registered there when its `Opaque` is a
connection), then the copy is addressed to the target and sent on the publish queue.  The
registered message is the object that is queued afterwards, so it is stored with its
final `Opaque`.  `n` is `len(targets)`; `none` when no identifier is free. -/
def SendPublishMessage.enqueue (n : Nat) (clientId : String) (x : PublishMessage)
    (self : Engine) : Option Engine :=
  if x.QosLevel > 0 then
    match self.OutGoingTable.NewId with
    | none => none
    | some (id, tbl) =>
      let x := { x with PacketIdentifier := id }
      let queued := { x with Opaque := OpaqueValue.connection clientId }
      let tbl :=
        match x.Opaque with
        | OpaqueValue.connection sender =>
          tbl.Register2 id (Message.publish queued) n (OpaqueValue.connection sender)
        | _ => tbl
      some { self with OutGoingTable := tbl, publishQueue := self.publishQueue ++ [queued] }
  else
    let queued := { x with Opaque := OpaqueValue.connection clientId }
    some { self with publishQueue := self.publishQueue ++ [queued] }

/-- The fan-out loop of `SendPublishMessage` (standard path).  `dp` holds the client-ids
already seen, `n` is `len(targets)`. -/
def SendPublishMessage.loop (msg : PublishMessage) (n : Nat) :
    List SubscribeSet → List String → Engine → Option Engine
  | [], _, self => some self
  | myset :: rest, dp, self =>
    let clientId := myset.ClientId
    if clientId ∈ dp then SendPublishMessage.loop msg n rest dp self
    else
      let dp := clientId :: dp
      match GetConnectionByClientId self clientId with
      | none => SendPublishMessage.loop msg n rest dp self
      | some _ =>
        match CopyPublishMessage msg with
        | none => SendPublishMessage.loop msg n rest dp self
        | some x =>
          let subscriberQos := myset.QoS
          let x := SendPublishMessage.downgrade x subscriberQos
          match SendPublishMessage.enqueue n clientId x self with
          | none => none
          | some self => SendPublishMessage.loop msg n rest dp self

/-- The sender goroutine of the `experimental.qos1` path (first delivery), run to
completion at the call; the retry and reader goroutines wait on timers and are not
represented.  `conn.GetId()` on a missing session is a nil dereference. -/
def SendPublishMessage.qos1Sender (flags : Flags) (msg : PublishMessage) :
    List SubscribeSet → List String → Engine → Option Engine
  | [], _, self => some self
  | myset :: rest, dp, self =>
    if myset.ClientId ∈ dp then SendPublishMessage.qos1Sender flags msg rest dp self
    else
      let dp := myset.ClientId :: dp
      match CopyPublishMessage msg with
      | none => none
      | some x =>
        let x := { x with QosLevel := myset.QoS }
        match GetConnectionByClientId self myset.ClientId with
        | none => none
        | some conn =>
          if conn.GetId flags ≠ myset.ClientId then
            SendPublishMessage.qos1Sender flags msg rest dp self
          else if x.QosLevel = 0 then
            let conn := conn.WriteMessageQueue (Message.publish x)
            SendPublishMessage.qos1Sender flags msg rest dp
              { self with Connections := mapSet self.Connections myset.ClientId conn }
          else
            let tbl := (mapGet self.InflightTable myset.ClientId).getD NewMessageTable
            match tbl.NewId with
            | none => none
            | some (id, tbl) =>
              let x := { x with PacketIdentifier := id, Opaque := OpaqueValue.channel }
              let tbl := tbl.Register2 id (Message.publish x) 1 OpaqueValue.packet
              let conn := conn.WriteMessageQueue (Message.publish x)
              SendPublishMessage.qos1Sender flags msg rest dp
                { self with InflightTable := mapSet self.InflightTable myset.ClientId tbl,
                            Connections := mapSet self.Connections myset.ClientId conn }

/-- The part of `SendPublishMessage` after the retained-store update: the fan-out. -/
def SendPublishMessage.fanout (flags : Flags) (self : Engine) (msg : PublishMessage) :
    Option Engine :=
  if flags.experimental_qos1 ∧ msg.QosLevel = 1 then
    let targets := self.Qlobber.Match msg.TopicName
    SendPublishMessage.qos1Sender flags msg targets [] self
  else
    let targets := self.Qlobber.Match msg.TopicName
    SendPublishMessage.loop msg targets.length targets [] self

/-- Function `Momonga.SendPublishMessage`.  `len(msg.TopicName) < 1` holds exactly when the string
has no character.  The result is the engine after the call, `none` when it panics. -/
def SendPublishMessage (flags : Flags) (self : Engine) (msg : PublishMessage) : Option Engine :=
  if msg.TopicName.data.length < 1 then some self
  else if msg.Retain > 0 then
    if msg.Payload.length = 0 then
      some { self with DataStore := self.DataStore.Del msg.TopicName }
    else
      SendPublishMessage.fanout flags
        { self with DataStore :=
            self.DataStore.Put msg.TopicName (WriteMessageTo (Message.publish msg)) } msg
  else SendPublishMessage.fanout flags self msg

/-- Function `Momonga.SendMessage`. -/
def SendMessage (flags : Flags) (self : Engine) (topic : String) (message : List Nat)
    (qos : Int) : Option Engine :=
  SendPublishMessage flags self
    { NewPublishMessage with TopicName := topic, Payload := message, QosLevel := qos }

/-- The PUBLISH that `SendWillMessage` builds from a will. -/
def willPublish (will : WillMessage) : PublishMessage :=
  { NewPublishMessage with
    TopicName := will.Topic, Payload := bytesOf will.Message, QosLevel := (will.Qos : Int) }

/-- Function `Momonga.SendWillMessage`; a connection without a will is a nil dereference. -/
def SendWillMessage (flags : Flags) (self : Engine) (conn : MyConnection) : Option Engine :=
  match conn.WillMessage with
  | none => none
  | some will => SendPublishMessage flags self (willPublish will)

/-! ## Handshake -/

def V311_MAGIC : List Nat := bytesOf "MQTT"

def V311_VERSION : Nat := 4

def V3_MAGIC : List Nat := bytesOf "MQIsdp"

def V3_VERSION : Nat := 3

/-- Function `Momonga.checkVersion`: `none` is the nil error. -/
def checkVersion (p : ConnectMessage) : Option String :=
  if V311_MAGIC = p.Magic then
    if p.Version ≠ V311_VERSION then some "passed MQTT, but version is not 4" else none
  else if V3_MAGIC = p.Magic then
    if p.Version ≠ V3_VERSION then some "passed MQisdp, but version is not 3" else none
  else some "Unexpected version strings"

/-- The result of `codec.NewConnackMessage()`. -/
def NewConnackMessage : ConnackMessage := { Reserved := 0, ReturnCode := 0 }

/-- Write a session value back under a key that still holds it. -/
def mapUpdate {α : Type} (m : List (String × α)) (k : String) (v : α) : List (String × α) :=
  m.map (fun e => if e.1 = k then (k, v) else e)

/-- The `experimental.newid` loop over a session's subscription set: each record is
removed from the matcher, given the client-id `id`, and added again. -/
def rekeySubscriptions (q : Qlobber) (id : String) :
    List (String × SubscribeSet) → Qlobber × List (String × SubscribeSet)
  | [] => (q, [])
  | (t, v) :: rest =>
    let q := q.Remove t v
    let v := { v with ClientId := id }
    let q := q.Add t v
    let r := rekeySubscriptions q id rest
    (r.1, (t, v) :: r.2)

/-- The replay loop of `Handshake` over the entries of the session's outgoing table (the
range statement walks the entries it started with; `Clean` empties the table). -/
def Handshake.replay : List (Nat × MessageContainer) → MmuxConnection → MmuxConnection
  | [], mux => mux
  | (_, c) :: rest, mux =>
    let msgs : List Message :=
      match c.Message with
      | Message.publish v => if v.QosLevel > 0 then [c.Message] else []
      | _ => []
    let mux := { mux with OutGoingTable := mux.OutGoingTable.Clean }
    let mux := msgs.foldl (fun m v => m.WriteMessageQueue v) mux
    Handshake.replay rest mux

/-- The state of `Handshake` once a session is bound: the engine, the connection, the
session, and the keys of the session table that hold the session (it is mutated through a
pointer, so its final value is written back under those keys). -/
structure Attached where
  self : Engine
  conn : MyConnection
  mux : MmuxConnection
  keys : List String
deriving DecidableEq, Repr

/-- How the start of `Handshake` ends: the call goes on to the CONNACK with the connection
as given, it panics, or it is stuck for good inside a `conn.Close()` whose send nobody
receives (with the connection as it is then). -/
inductive Prepared where
  | ready (conn : MyConnection)
  | panicked
  | blocked (conn : MyConnection)
deriving DecidableEq, Repr

/-- The two `conn.Close()` calls of the failed version check in `Handshake`, one after the
other with no `return` between or after them. -/
def Handshake.closeTwice (conn : MyConnection) : Prepared :=
  if conn.closeReceived then
    let conn := conn.Close
    if conn.closeReceived then Prepared.ready conn.Close
    else Prepared.blocked conn.closeBlocked
  else Prepared.blocked conn.closeBlocked

/-- The start of `Handshake` after the `Connected` test: a failed version check closes the
connection twice and, if both calls return, goes on; a set will flag stores `*p.Will`
(nil dereference: the call panics), and a CONNECT without clean-session clears the
connection's flag. -/
def Handshake.prepare (p : ConnectMessage) (conn : MyConnection) : Prepared :=
  let closed := if (checkVersion p).isSome then Handshake.closeTwice conn else Prepared.ready conn
  match closed with
  | Prepared.ready conn =>
    let willStep : Option MyConnection :=
      if p.Flag &&& 4 > 0 then p.Will.map (fun w => conn.SetWillMessage w) else some conn
    match willStep with
    | none => Prepared.panicked
    | some conn => Prepared.ready (if !p.CleanSession then conn.DisableClearSession else conn)
  | stuck => stuck

/-- The `if mux != nil` block of `Handshake`: attach to the session found under `p.Identifier`. -/
def Handshake.attachExisting (flags : Flags) (self : Engine) (p : ConnectMessage)
    (conn : MyConnection) (mux : MmuxConnection) : Attached :=
  let conn := conn.SetId p.Identifier
  let conn := conn.SetKeepaliveInterval (p.KeepAlive : Int)
  let mux := mux.SetKeepaliveInterval (p.KeepAlive : Int)
  let mux := mux.SetState State.CONNECTED
  let mux := mux.DisableClearSession
  let conn := conn.SetGuid mux.Guid
  if conn.ShouldClearSession then
    let self := CleanSubscription self mux
    if flags.experimental_newid then
      let self := SetConnectionByClientId self (mux.GetId flags) mux
      let self := RemoveConnectionByClientId self mux.Identifier
      { self := self, conn := conn, mux := mux.Attach conn,
        keys := [p.Identifier, mux.GetId flags] }
    else
      { self := self, conn := conn, mux := mux.Attach conn, keys := [p.Identifier] }
  else
    if flags.experimental_newid then
      let r := rekeySubscriptions self.Qlobber (mux.GetId flags) mux.SubscribedTopics
      let self := { self with Qlobber := r.1 }
      let mux := { mux with SubscribedTopics := r.2 }
      let self := SetConnectionByClientId self (mux.GetId flags) mux
      let self := RemoveConnectionByClientId self mux.Identifier
      { self := self, conn := conn, mux := mux.Attach conn,
        keys := [p.Identifier, mux.GetId flags] }
    else
      { self := self, conn := conn, mux := mux.Attach conn, keys := [p.Identifier] }

/-- The `else` block of `Handshake`: create a session, give it a guid, bind and store it. -/
def Handshake.attachNew (flags : Flags) (newGUID : Nat) (self : Engine) (p : ConnectMessage)
    (conn : MyConnection) : Attached :=
  let mux := NewMmuxConnection
  let mux := mux.SetId p.Identifier
  let mux := mux.SetGuid newGUID
  let conn := conn.SetGuid newGUID
  let mux := mux.Attach conn
  let self := SetConnectionByClientId self (mux.GetId flags) mux
  let conn := conn.SetId p.Identifier
  let conn := conn.SetKeepaliveInterval (p.KeepAlive : Int)
  let mux := mux.SetKeepaliveInterval (p.KeepAlive : Int)
  let mux := mux.SetState State.CONNECTED
  { self := self, conn := conn, mux := mux, keys := [mux.GetId flags] }

/-- The end of `Handshake`: forget the retry entry of a clean session or replay the
outgoing table, mark the connection connected and count the client. -/
def Handshake.complete (flags : Flags) (p : ConnectMessage) (a : Attached) : Attached :=
  let self := if p.CleanSession then
      { a.self with RetryMap := mapDelete a.self.RetryMap (a.mux.GetId flags) } else a.self
  let mux := if p.CleanSession then a.mux else Handshake.replay a.mux.OutGoingTable.Hash a.mux
  let conn := { a.conn with Connected := true }
  let self := { self with
    Connections := a.keys.foldl (fun m k => mapUpdate m k mux) self.Connections,
    ClientsConnected := self.ClientsConnected + 1 }
  { self := self, conn := conn, mux := mux, keys := a.keys }

/-- The CONNACK of `Handshake`: the session-present bit is set when the lookup succeeded. -/
def Handshake.reply (found : Option MmuxConnection) : ConnackMessage :=
  let reply := NewConnackMessage
  if found.isSome then { reply with Reserved := reply.Reserved ||| 1 } else reply

/-- Function `Momonga.Handshake`.  `newGUID` is the value returned by `guidFactory.NewGUID`.  The
result is the engine and the connection after the call and the returned session (`none`
for nil); the whole result is `none` when the call does not return: it panics, or it is
stuck in the second `conn.Close()` of the failed version check (`Handshake.prepare` tells
which).  In the `Connected` branch the connection is one whose packets are being handled
and that has been connected, and the send of its `conn.Close()` is taken as received. -/
def Handshake (flags : Flags) (newGUID : Nat) (self : Engine) (p : ConnectMessage)
    (conn : MyConnection) : Option (Engine × MyConnection × Option MmuxConnection) :=
  if conn.Connected = true then some (self, conn.Close, none)
  else
    match Handshake.prepare p conn with
    | Prepared.panicked => none
    | Prepared.blocked _ => none
    | Prepared.ready conn =>
      let found := GetConnectionByClientId self p.Identifier
      let conn := conn.WriteMessageQueue (Message.connack (Handshake.reply found))
      let a :=
        match found with
        | some mux => Handshake.attachExisting flags self p conn mux
        | none => Handshake.attachNew flags newGUID self p conn
      let r := Handshake.complete flags p a
      some (r.self, r.conn, some r.mux)

/-! ## HandleConnection -/

/-- The error a read can return: `io.EOF` or another error.  (`DisconnectError` is only
created inside `HandleConnection`.) -/
inductive ReadError where
  | EOF
  | other
deriving DecidableEq, Repr

/-- How a run of the `HandleConnection` loop stands: still reading, returned after the
disconnect handling, or left through a panic (caught by the deferred `recover`). -/
inductive LoopResult where
  | running (self : Engine) (conn : MyConnection)
  | finished (self : Engine) (conn : MyConnection)
  | panicked
deriving DecidableEq, Repr

/-- The `if mux != nil` block of `HandleConnection`: detach, then remove a clean session
and its subscriptions, or (under `experimental.newid`) move a kept session back under its
plain identifier. -/
def HandleConnection.cleanup (flags : Flags) (self : Engine) (conn : MyConnection) : Engine :=
  match GetConnectionByClientId self (conn.GetId flags) with
  | none => self
  | some mux =>
    let mux := mux.Detach conn
    let self := { self with Connections := mapUpdate self.Connections (conn.GetId flags) mux }
    if mux.ShouldClearSession then
      let self := CleanSubscription self mux
      RemoveConnectionByClientId self (mux.GetId flags)
    else
      if flags.experimental_newid then
        let r := rekeySubscriptions self.Qlobber mux.Identifier mux.SubscribedTopics
        let moved := { mux with SubscribedTopics := r.2 }
        let self := { self with Connections := mapUpdate self.Connections (conn.GetId flags) moved }
        let self := SetConnectionByClientId self mux.Identifier moved
        let self := { self with Qlobber := r.1 }
        RemoveConnectionByClientId self (mux.GetId flags)
      else self

/-- The body of the `HandleConnection` loop after `conn.ReadMessage()` returned `err`
(`none` for nil) and left the engine and the connection as given: `none` when the loop
goes on to the next read.  The source fetches the session pointer before the will is sent;
the session being held by value here, `cleanup` reads it from the table afterwards (sending
the will never adds or removes a table key). -/
def HandleConnection.afterRead (flags : Flags) (self : Engine) (conn : MyConnection)
    (err : Option ReadError) : Option LoopResult :=
  let disconnect := decide (conn.GetState = State.CLOSED)
  if disconnect = false ∧ err = none then none
  else
    let willStep : Option Engine :=
      if disconnect = false then
        if conn.HasWillMessage then SendWillMessage flags self conn else some self
      else some self
    match willStep with
    | none => some LoopResult.panicked
    | some self =>
      some (LoopResult.finished (HandleConnection.cleanup flags self conn) conn.Close)

/-- Function `Momonga.HandleConnection`, run on the successive behaviours of `conn.ReadMessage()`
(each read acts on the engine and the connection through the installed event handlers and
returns an error or nil). -/
def HandleConnection (flags : Flags) :
    List (Engine × MyConnection → Engine × MyConnection × Option ReadError) →
    Engine → MyConnection → LoopResult
  | [], self, conn => LoopResult.running self conn
  | read :: rest, self, conn =>
    let r := read (self, conn)
    match HandleConnection.afterRead flags r.1 r.2.1 r.2.2 with
    | none => HandleConnection flags rest r.1 r.2.1
    | some result => result

/-- Function `NewMomonga`: the initial state of the engine. -/
def NewMomonga : Engine :=
  { publishQueue := [], OutGoingTable := NewMessageTable, InflightTable := [], Qlobber := [],
    Connections := [], RetryMap := [], DataStore := NewDatastore, ClientsConnected := 0,
    EnableSys := false }

/-- A CONNECT of protocol 3.1.1 with the given client-id and clean-session flag, no will. -/
def connectOf (id : String) (clean : Bool) : ConnectMessage :=
  { Magic := V311_MAGIC, Version := V311_VERSION, Flag := if clean then 2 else 0, Will := none,
    CleanSession := clean, Identifier := id, KeepAlive := 10 }

/-- The standard flag setting: both experimental paths off. -/
def noFlags : Flags := { experimental_qos1 := false, experimental_newid := false }

/-- An engine whose session table holds the kept session "c" with one outstanding
qos 1 PUBLISH (identifier 1, dup flag clear) in its outgoing table. -/
def engineWithInflight : Engine :=
  { NewMomonga with
    Connections := [("c",
      { NewMmuxConnection with
        Identifier := "c", CleanSession := false,
        OutGoingTable :=
          { Id := 1,
            Hash := [(1, { Message := Message.publish
                              { NewPublishMessage with
                                TopicName := "q", Payload := [112], QosLevel := 1,
                                PacketIdentifier := 1 },
                           Refcount := 1, Opaque := OpaqueValue.null })] } })] }

/-- A connected client that stored the will ("bye", "gone", qos 0). -/
def connWithWill : MyConnection :=
  { NewMyConnection 1 with
    Id := "a", State := State.CONNECTED, Connected := true,
    WillMessage := some { Topic := "bye", Message := "gone", Qos := 0 } }

/-! ## Unsubscribe -/

/-- Function `Momonga.Unsubscribe`: each named filter found in the session's subscription
set is removed from the matcher with its record, then the UNSUBACK is written to the
session.  The result is the engine and the session after the call. -/
def Unsubscribe (self : Engine) (messageId : Nat) (granted : Int)
    (payloads : List SubscribePayload) (conn : MmuxConnection) : Engine × MmuxConnection :=
  let _ := granted
  let topics := conn.SubscribedTopics
  let q := payloads.foldl
    (fun q payload =>
      match mapGet topics payload.TopicPath with
      | some v => Qlobber.Remove q payload.TopicPath v
      | none => q)
    self.Qlobber
  ({ self with Qlobber := q }, conn.WriteMessageQueue (Message.unsuback messageId))

/-! ## PUBCOMP codec (`encoding/mqtt/pubcomp.go`) -/

/-- Modelled from the spec: the MQTT fixed header (`FixedHeader`, §3: type, flags,
remaining-length); its declaration is not among the sources. -/
structure FixedHeader where
  PacketType : Nat
  Flags : Nat
  RemainingLength : Nat
deriving DecidableEq, Repr

structure PubcompMessage where
  FixedHeader : FixedHeader
  PacketIdentifier : Nat
deriving DecidableEq, Repr

/-- The two bytes `binary.Write(buffer, binary.BigEndian, v)` appends for a `uint16`. -/
def bigEndianUint16 (v : Nat) : List Nat := [v / 256 % 256, v % 256]

/-- Function `PubcompMessage.encode`: the bytes, the reported length and the error (`none`
for nil). -/
def PubcompMessage.encode (self : PubcompMessage) : List Nat × Nat × Option String :=
  (bigEndianUint16 self.PacketIdentifier, 2, none)

/-- Function `PubcompMessage.decode` on a reader that holds the given bytes: the message
and the unread bytes after the call, and the returned error (`none` for nil).
`binary.Read` fills `PacketIdentifier` from two bytes; with fewer bytes it reports an error,
which is dropped, and leaves the field as it was. -/
def PubcompMessage.decode (self : PubcompMessage) (reader : List Nat) :
    PubcompMessage × List Nat × Option String :=
  match reader with
  | b0 :: b1 :: rest =>
    ({ self with PacketIdentifier := b0 % 256 * 256 + b1 % 256 }, rest, none)
  | _ => (self, [], none)

/-! ## Fan-out: specification -/

/-- The records of `targets` for which the fan-out loop queues a copy: the first record of
each client-id not in `dp`, when the session table holds a session under that id. -/
def copyRecords (conns : List (String × MmuxConnection)) :
    List SubscribeSet → List String → List SubscribeSet
  | [], _ => []
  | r :: rest, dp =>
    if r.ClientId ∈ dp then copyRecords conns rest dp
    else if (mapGet conns r.ClientId).isSome then r :: copyRecords conns rest (r.ClientId :: dp)
    else copyRecords conns rest (r.ClientId :: dp)

/-- The copy queued for a record: the publish with its QoS capped by the record's QoS,
addressed to the record's client. -/
def isCopyFor (msg : PublishMessage) (r : SubscribeSet) (x : PublishMessage) : Prop :=
  x.QosLevel = min msg.QosLevel r.QoS ∧ x.Opaque = OpaqueValue.connection r.ClientId ∧
    x.TopicName = msg.TopicName ∧ x.Payload = msg.Payload

/-- The matcher records that the fan-out of `SendPublishMessage` works on: none when the
call returns before the fan-out (empty topic name, or a retained message with an empty
payload), otherwise what the matcher returns for the topic name. -/
def fanoutTargets (self : Engine) (msg : PublishMessage) : List SubscribeSet :=
  if msg.TopicName.data.length < 1 then []
  else if msg.Retain > 0 ∧ msg.Payload.length = 0 then []
  else self.Qlobber.Match msg.TopicName

/-- Whether the session stored under `k` answers to `k`, the `conn.GetId() != myset.ClientId`
test of the qos1 sender turned round. -/
def sessionAnswers (flags : Flags) (conns : List (String × MmuxConnection)) (k : String) : Bool :=
  decide ((mapGet conns k).map (fun c => c.GetId flags) = some k)

/-- What the qos1 sender adds to the queue of the session under `k`: nothing when no record
of `targets` carries `k`, when `k` is in `dp`, or when the session under `k` does not
answer to `k`; otherwise exactly one PUBLISH, a copy of `msg` (topic and payload) made for
the first record of `k` in `targets`, at that record's QoS. -/
def qos1Delivery (flags : Flags) (msg : PublishMessage) (conns : List (String × MmuxConnection))
    (targets : List SubscribeSet) (dp : List String) (k : String) (extra : List Message) : Prop :=
  match targets.find? (fun t => decide (t.ClientId = k)) with
  | none => extra = []
  | some r =>
    if k ∈ dp ∨ sessionAnswers flags conns k = false then extra = []
    else ∃ y, extra = [Message.publish y] ∧ y.QosLevel = r.QoS ∧
      y.TopicName = msg.TopicName ∧ y.Payload = msg.Payload

/-- An engine in which the client "c" holds two subscriptions that both match the topic
"a": the filter "a" at qos 1 and, later in matcher order, the filter "+" at qos 2. -/
def engineWithOverlap : Engine :=
  { NewMomonga with
    Qlobber := [("a", { TopicFilter := "a", ClientId := "c", QoS := 1 }),
                ("+", { TopicFilter := "+", ClientId := "c", QoS := 2 })],
    Connections := [("c", { NewMmuxConnection with Identifier := "c" })] }

/-- The flag setting with the `experimental.qos1` path on. -/
def qos1Flags : Flags := { experimental_qos1 := true, experimental_newid := false }

/-- A PUBLISH on topic "a" with the given QoS. -/
def publishOnA (qos : Int) : PublishMessage :=
  { NewPublishMessage with TopicName := "a", Payload := [104], QosLevel := qos }

/-! ## Scenarios -/

/-- The session of client "c" before any subscription. -/
def sessionC : MmuxConnection := { NewMmuxConnection with Identifier := "c" }

/-- A SUBSCRIBE with one payload. -/
def subscribeTo (id : Nat) (filter : String) (qos : Nat) : SubscribeMessage :=
  { PacketIdentifier := id, Payload := [{ TopicPath := filter, RequestedQos := qos }] }

/-- Client "c" subscribes to "a" on a fresh engine and then unsubscribes from it: the
engine and the session after the UNSUBSCRIBE. -/
def afterUnsubscribe : Option (Engine × MmuxConnection) :=
  (Subscribe goRegexp noFlags NewMomonga (subscribeTo 1 "a" 0) sessionC).map
    (fun r => Unsubscribe r.1 2 0 [{ TopicPath := "a", RequestedQos := 0 }] r.2)

/-- An engine whose retained store holds, under "r", a PUBLISH stored with qos 2. -/
def engineWithRetained : Engine :=
  { NewMomonga with
    DataStore := [("r", WriteMessageTo (Message.publish
      { NewPublishMessage with
        TopicName := "r", Payload := [107], QosLevel := 2, Retain := 1 }))] }

/-- An engine in which client "c" is subscribed to the filter "#" at qos 0. -/
def engineWithWildcard : Engine :=
  { NewMomonga with
    Qlobber := [("#", { TopicFilter := "#", ClientId := "c", QoS := 0 })],
    Connections := [("c", sessionC)] }

/-- A CONNECT that names protocol "MQTT" with version byte 3. -/
def connectWrongVersion : ConnectMessage := { (connectOf "c" true) with Version := 3 }

/-- A connected connection after its write loop sent one outbound qos 1 PUBLISH, which
the loop registered in the inflight table under the identifier 1. -/
def afterOutboundPublish : Option MyConnection :=
  ({ NewMyConnection 1 with State := State.CONNECTED }).writeLoopStep
    (Message.publish { NewPublishMessage with TopicName := "t", Payload := [112], QosLevel := 1 })

/-- An inbound qos 2 PUBLISH that the client sent with the identifier 1. -/
def inboundQos2 : PublishMessage :=
  { NewPublishMessage with
    TopicName := "u", Payload := [120], QosLevel := 2, PacketIdentifier := 1 }

/-- An engine whose session table holds, under "c", a session with the clean-session flag
set and one subscription, to "a/b"; the matcher holds the record of that subscription. -/
def engineWithCleanSession : Engine :=
  { NewMomonga with
    Connections := [("c",
      { NewMmuxConnection with
        Identifier := "c", CleanSession := true,
        SubscribedTopics := [("a/b", { TopicFilter := "a/b", ClientId := "c", QoS := 1 })] })],
    Qlobber := [("a/b", { TopicFilter := "a/b", ClientId := "c", QoS := 1 })] }

/-- A connection that completed its handshake as client "c". -/
def connOfC : MyConnection :=
  { NewMyConnection 1 with Id := "c", Connected := true, State := State.CONNECTED }

/-! ## Write loop -/

/-- The write loop started by `NewMyConnection`, run on the packets it draws from `Queue`
one after the other (`writeLoopStep` for each); `none` when a step finds no free
identifier. -/
def MyConnection.writeLoop : List Message → MyConnection → Option MyConnection
  | [], c => some c
  | msg :: rest, c =>
    match c.writeLoopStep msg with
    | none => none
    | some c => MyConnection.writeLoop rest c

/-- A PUBLISH on topic "t" with qos 0, as the write loop draws it from the queue. -/
def publishOnT : Message :=
  Message.publish { NewPublishMessage with TopicName := "t", Payload := [112] }

/-! ## Go maps: lemmas -/

theorem mapGet_mapSet_self {α : Type} (m : List (String × α)) (k : String) (v : α) :
    mapGet (mapSet m k v) k = some v := by
  unfold mapSet
  split_ifs with h
  · induction m with
    | nil => simp at h
    | cons e rest ih =>
      by_cases he : e.1 = k
      · simp [mapGet, List.find?, he]
      · have hr : rest.any (fun e => decide (e.1 = k)) = true := by
          simpa [List.any_cons, he] using h
        have := ih hr
        simp only [mapGet, List.map_cons, he, if_false] at this ⊢
        rw [List.find?_cons_of_neg _ (by simpa using he)]
        exact this
  · induction m with
    | nil => simp [mapGet]
    | cons e rest ih =>
      have he : ¬ e.1 = k := by
        intro he; apply h; simp [List.any_cons, he]
      have hr : ¬ rest.any (fun e => decide (e.1 = k)) = true := by
        intro hr; apply h; simp only [List.any_cons, hr, Bool.or_true]
      have := ih hr
      simp only [mapGet, List.cons_append] at this ⊢
      rw [List.find?_cons_of_neg _ (by simpa using he)]
      exact this

theorem mapGet_mapDelete_self {α : Type} (m : List (String × α)) (k : String) :
    mapGet (mapDelete m k) k = none := by
  unfold mapGet mapDelete
  have h : List.find? (fun e : String × α => decide (e.1 = k))
      (List.filter (fun e => decide (e.1 ≠ k)) m) = none := by
    rw [List.find?_eq_none]
    intro x hx
    have := (List.mem_filter.mp hx).2
    simpa using this
  rw [h]
  rfl

theorem mapGet_mapDelete_ne {α : Type} (m : List (String × α)) (k k' : String) (h : k' ≠ k) :
    mapGet (mapDelete m k) k' = mapGet m k' := by
  unfold mapGet mapDelete
  induction m with
  | nil => rfl
  | cons e rest ih =>
    by_cases he : e.1 = k
    · have hne : ¬ e.1 = k' := by rw [he]; exact fun h' => h h'.symm
      rw [List.filter_cons_of_neg (by simpa using he), List.find?_cons_of_neg _ (by simpa using hne)]
      exact ih
    · rw [List.filter_cons_of_pos (by simpa using he)]
      by_cases he' : e.1 = k'
      · rw [List.find?_cons_of_pos _ (by simpa using he'), List.find?_cons_of_pos _ (by simpa using he')]
      · rw [List.find?_cons_of_neg _ (by simpa using he'), List.find?_cons_of_neg _ (by simpa using he')]
        exact ih

theorem mapGet_mapUpdate_self {α : Type} (m : List (String × α)) (k : String) (v : α)
    (h : (mapGet m k).isSome) : mapGet (mapUpdate m k v) k = some v := by
  unfold mapGet mapUpdate at *
  induction m with
  | nil => simp at h
  | cons e rest ih =>
    by_cases he : e.1 = k
    · simp [List.find?, he]
    · rw [List.find?_cons_of_neg _ (by simpa using he)] at h
      simp only [List.map_cons, he, if_false]
      rw [List.find?_cons_of_neg _ (by simpa using he)]
      exact ih h

theorem mapGet_mapUpdate_ne {α : Type} (m : List (String × α)) (k k' : String) (v : α)
    (h : k' ≠ k) : mapGet (mapUpdate m k v) k' = mapGet m k' := by
  unfold mapGet mapUpdate
  induction m with
  | nil => rfl
  | cons e rest ih =>
    by_cases he : e.1 = k
    · have hne : ¬ e.1 = k' := by rw [he]; exact fun h' => h h'.symm
      simp only [List.map_cons, he, if_true]
      rw [List.find?_cons_of_neg _ (by simpa using fun h' : k = k' => h h'.symm),
        List.find?_cons_of_neg _ (by simpa using hne)]
      exact ih
    · simp only [List.map_cons, he, if_false]
      by_cases he' : e.1 = k'
      · rw [List.find?_cons_of_pos _ (by simpa using he'), List.find?_cons_of_pos _ (by simpa using he')]
      · rw [List.find?_cons_of_neg _ (by simpa using he'), List.find?_cons_of_neg _ (by simpa using he')]
        exact ih

theorem tagged_ne (s t : String) : s ++ ":" ++ t ≠ s := by
  intro h
  have hl := congrArg String.length h
  have h1 : ":".length = 1 := by decide
  rw [String.length_append, String.length_append, h1] at hl
  omega

/-- After removing every record of a list from the matcher, none of them is left. -/
theorem foldl_Remove_not_mem (l : List (String × SubscribeSet)) (q : Qlobber) :
    ∀ tv ∈ l, tv ∉ l.foldl (fun q tv => Qlobber.Remove q tv.1 tv.2) q := by
  have hsub : ∀ (l : List (String × SubscribeSet)) (q : Qlobber) (x : String × SubscribeSet),
      x ∈ l.foldl (fun q tv => Qlobber.Remove q tv.1 tv.2) q → x ∈ q := by
    intro l
    induction l with
    | nil => intro q x hx; exact hx
    | cons a rest ih =>
      intro q x hx
      have := ih _ x hx
      exact (List.mem_filter.mp this).1
  induction l generalizing q with
  | nil => intro tv h; cases h
  | cons a rest ih =>
    intro tv htv hmem
    rcases List.mem_cons.mp htv with h | h
    · have := hsub rest _ tv hmem
      have := (List.mem_filter.mp this).2
      simp [h] at this
    · exact ih _ tv h hmem

theorem mapGet_foldl_mapUpdate {α : Type} (keys : List String) (m : List (String × α))
    (k : String) (v : α) (hpresent : (mapGet m k).isSome)
    (hk : k ∈ keys ∨ mapGet m k = some v) :
    mapGet (keys.foldl (fun m k => mapUpdate m k v) m) k = some v := by
  induction keys generalizing m with
  | nil =>
    rcases hk with h | h
    · cases h
    · exact h
  | cons k0 ks ih =>
    simp only [List.foldl_cons]
    by_cases h0 : k0 = k
    · subst h0
      have hv := mapGet_mapUpdate_self m k0 v hpresent
      exact ih _ (by rw [hv]; rfl) (Or.inr hv)
    · have hne : k ≠ k0 := fun h => h0 h.symm
      have hv := mapGet_mapUpdate_ne m k0 k v hne
      apply ih
      · rw [hv]; exact hpresent
      · rcases hk with h | h
        · rcases List.mem_cons.mp h with h' | h'
          · exact absurd h' hne
          · exact Or.inl h'
        · exact Or.inr (by rw [hv]; exact h)

/-! ## Retained store and RetainMatch: theorems -/

theorem Datastore.Get_Del (ds : Datastore) (k : String) : (ds.Del k).Get k = none := by
  unfold Datastore.Get Datastore.Del
  have h : List.find? (fun e : String × Serialized => decide (e.1 = k))
      (List.filter (fun e => decide (e.1 ≠ k)) ds) = none := by
    rw [List.find?_eq_none]
    intro x hx
    have := (List.mem_filter.mp hx).2
    simpa using this
  rw [h]
  rfl

/-- A `$`-keyed entry is skipped by the loop when the filter starts with a wildcard. -/
theorem RetainMatch.loop_filter (reg : Option (String → Bool)) (ds : Datastore) :
    RetainMatch.loop reg true ds =
      RetainMatch.loop reg true (ds.filter (fun e => !firstIs e.1 '$')) := by
  induction ds with
  | nil => rfl
  | cons e rest ih =>
    obtain ⟨k, data⟩ := e
    by_cases hk : firstIs k '$' = true
    · have hlen : 0 < k.data.length := by
        unfold firstIs at hk
        cases hd : k.data with
        | nil => simp [hd] at hk
        | cons c cs => simp
      have hstep : RetainMatch.loop reg true ((k, data) :: rest) =
          RetainMatch.loop reg true rest := by
        have hlen2 : ¬ k.length = 0 := by
          show ¬ k.data.length = 0
          omega
        cases reg <;> simp [RetainMatch.loop, hk, hlen2]
      rw [hstep, ih]
      simp [List.filter_cons, hk]
    · have hk' : firstIs k '$' = false := by simpa using hk
      simp only [List.filter_cons, hk', Bool.not_false, if_true]
      cases reg with
      | none => simp [RetainMatch.loop, hk']
      | some m => simp only [RetainMatch.loop, hk', Bool.and_false, Bool.false_eq_true, if_false, ih]

/-- C1 (evaluated at the failing input): a SUBSCRIBE with the single payload ("a", qos 1)
from a session without subscriptions is answered with a SUBACK whose Qos list is [0, 1]:
two entries, the first of them the zero byte the buffer started with. -/
theorem C1_suback_qos_has_leading_zero_bytes :
    (Subscribe goRegexp { experimental_qos1 := false, experimental_newid := false } NewMomonga
        { PacketIdentifier := 7, Payload := [{ TopicPath := "a", RequestedQos := 1 }] }
        { NewMmuxConnection with Identifier := "c" }).map (fun r => r.2.Queue) =
      some [Message.suback { PacketIdentifier := 7, Qos := [0, 1] }] := by
  decide

/-- C2: for a PUBLISH with a non-empty topic name, retain = 1 and an empty payload,
SendPublishMessage returns the engine with the retained entry of that topic deleted and
nothing else changed (in particular the publish queue), whatever the matcher holds. -/
theorem C2_retain_empty_payload_deletes_without_fanout (flags : Flags) (self : Engine)
    (msg : PublishMessage) (htopic : msg.TopicName ≠ "") (hretain : msg.Retain = 1)
    (hpayload : msg.Payload = []) :
    SendPublishMessage flags self msg =
        some { self with DataStore := self.DataStore.Del msg.TopicName } ∧
      (self.DataStore.Del msg.TopicName).Get msg.TopicName = none ∧
      ∀ self', SendPublishMessage flags self msg = some self' →
        self'.publishQueue = self.publishQueue ∧ self'.Connections = self.Connections := by
  have hlen : ¬ msg.TopicName.data.length < 1 := by
    intro h
    apply htopic
    apply String.ext
    exact List.length_eq_zero.mp (by omega)
  have hcall : SendPublishMessage flags self msg =
      some { self with DataStore := self.DataStore.Del msg.TopicName } := by
    unfold SendPublishMessage
    rw [if_neg hlen, hretain, hpayload]
    simp
  refine ⟨hcall, Datastore.Get_Del _ _, ?_⟩
  intro self' h
  rw [hcall] at h
  cases h
  exact ⟨rfl, rfl⟩

theorem C2_witness :
    SendPublishMessage { experimental_qos1 := false, experimental_newid := false }
        { NewMomonga with DataStore := [("r", WriteMessageTo (Message.publish
            { NewPublishMessage with TopicName := "r", Payload := [107], Retain := 1 }))] }
        { NewPublishMessage with TopicName := "r", Retain := 1 } =
      some NewMomonga :=
  (C2_retain_empty_payload_deletes_without_fanout _ _
    { NewPublishMessage with TopicName := "r", Retain := 1 } (by decide) rfl rfl).1

/-- C3 (evaluated at the failing input): with the retained store holding a PUBLISH under
the key "ab", RetainMatch for the filter "a" returns that PUBLISH, although the topic "ab"
does not match the filter "a" level by level. -/
theorem C3_RetainMatch_returns_unmatched_topic :
    RetainMatch goRegexp
        [("ab", WriteMessageTo (Message.publish
          { NewPublishMessage with TopicName := "ab", Payload := [107], Retain := 1 }))] "a" =
      some [{ NewPublishMessage with TopicName := "ab", Payload := [107], Retain := 1 }] ∧
    topicMatches "a" "ab" = false := by
  decide

/-- C4: for a filter whose first character is `+` or `#`, the result of RetainMatch is the
result on the store without its `$`-keyed entries, and a store with only `$`-keyed entries
gives the empty list: no returned message comes from a key that begins with `$`. -/
theorem C4_wildcard_filter_skips_dollar_keys (rx : Regexp) (ds : Datastore) (filter : String)
    (hfirst : filter.data.head? = some '+' ∨ filter.data.head? = some '#') :
    RetainMatch rx ds filter =
        RetainMatch rx (ds.filter (fun e => !firstIs e.1 '$')) filter ∧
      ((∀ e ∈ ds, firstIs e.1 '$' = true) → RetainMatch rx ds filter = some []) := by
  have hlen : ¬ filter.data.length < 1 := by
    cases hd : filter.data with
    | nil => rw [hd] at hfirst; simp at hfirst
    | cons c cs => simp
  have hall : (firstIs filter '#' || firstIs filter '+') = true := by
    unfold firstIs
    rcases hfirst with h | h <;> simp [h]
  have hcall : ∀ d : Datastore, RetainMatch rx d filter =
      RetainMatch.loop (rx.Compile (stringsReplace (stringsReplace filter '+' "[^/]+") '#' ".*"))
        true d := by
    intro d
    unfold RetainMatch
    simp only [hlen, if_false, hall]
  constructor
  · rw [hcall, hcall]
    exact RetainMatch.loop_filter _ _
  · intro hds
    rw [hcall, RetainMatch.loop_filter]
    have : ds.filter (fun e => !firstIs e.1 '$') = [] := by
      rw [List.filter_eq_nil_iff]
      intro e he
      simp [hds e he]
    rw [this]
    rfl

theorem C4_witness :
    RetainMatch goRegexp
        [("$SYS/x", WriteMessageTo (Message.publish NewPublishMessage)),
         ("a", WriteMessageTo (Message.publish NewPublishMessage))] "#" =
      RetainMatch goRegexp
        ([("$SYS/x", WriteMessageTo (Message.publish NewPublishMessage)),
          ("a", WriteMessageTo (Message.publish NewPublishMessage))].filter
            (fun e => !firstIs e.1 '$')) "#" :=
  (C4_wildcard_filter_skips_dollar_keys goRegexp _ "#" (Or.inr (by decide))).1

/-! ## Handshake: theorems -/

theorem Handshake.prepare_spec (p : ConnectMessage) (conn : MyConnection)
    (hver : checkVersion p = none) (hwill : p.Flag &&& 4 > 0 → p.Will.isSome) :
    ∃ c0, Handshake.prepare p conn = Prepared.ready c0 ∧ c0.Queue = conn.Queue ∧
      c0.CleanSession = (conn.CleanSession && p.CleanSession) := by
  unfold Handshake.prepare
  simp only [hver, Option.isSome_none, Bool.false_eq_true, if_false]
  by_cases hf : p.Flag &&& 4 > 0
  · obtain ⟨w, hw⟩ := Option.isSome_iff_exists.mp (hwill hf)
    refine ⟨_, by simp only [hf, hw, if_true, Option.map_some']; rfl, ?_, ?_⟩ <;>
      cases hc : p.CleanSession <;>
      simp [MyConnection.SetWillMessage, MyConnection.DisableClearSession]
  · refine ⟨_, by simp only [hf, if_false]; rfl, ?_, ?_⟩ <;>
      cases hc : p.CleanSession <;>
      simp [MyConnection.DisableClearSession]

theorem Handshake.attachExisting_conn (flags : Flags) (self : Engine) (p : ConnectMessage)
    (conn : MyConnection) (mux : MmuxConnection) :
    (Handshake.attachExisting flags self p conn mux).conn =
      ((conn.SetId p.Identifier).SetKeepaliveInterval (p.KeepAlive : Int)).SetGuid mux.Guid := by
  unfold Handshake.attachExisting
  simp only
  split_ifs <;> rfl

theorem Handshake.attachNew_conn (flags : Flags) (g : Nat) (self : Engine) (p : ConnectMessage)
    (conn : MyConnection) :
    (Handshake.attachNew flags g self p conn).conn =
      ((conn.SetGuid g).SetId p.Identifier).SetKeepaliveInterval (p.KeepAlive : Int) := rfl

/-- What `Handshake` does with the session-present bit: for a CONNECT that passes the
version check on a connection that has not connected before, the one packet enqueued is a
CONNACK with return code 0 whose Reserved byte has bit 0 set if and only if the lookup of
the client identifier in the session table succeeded, whatever the clean-session flag of
the CONNECT and of the session found. -/
theorem Handshake.session_present_iff_found (flags : Flags) (newGUID : Nat) (self : Engine)
    (p : ConnectMessage) (conn : MyConnection)
    (hconn : conn.Connected = false) (hver : checkVersion p = none)
    (hwill : p.Flag &&& 4 > 0 → p.Will.isSome) :
    ∃ self' conn' mux reply,
      Handshake flags newGUID self p conn = some (self', conn', some mux) ∧
      conn'.Queue = conn.Queue ++ [Message.connack reply] ∧
      reply.ReturnCode = 0 ∧
      (reply.Reserved % 2 = 1 ↔ (GetConnectionByClientId self p.Identifier).isSome) := by
  obtain ⟨c0, hc0, hq0, _⟩ := Handshake.prepare_spec p conn hver hwill
  unfold Handshake
  simp only [hconn, Bool.false_eq_true, if_false, hc0]
  refine ⟨_, _, _, Handshake.reply (GetConnectionByClientId self p.Identifier), rfl, ?_, ?_, ?_⟩
  · cases hfound : GetConnectionByClientId self p.Identifier with
    | none =>
      simp only [Handshake.complete, Handshake.attachNew_conn]
      simp [MyConnection.WriteMessageQueue, MyConnection.SetId, MyConnection.SetGuid,
        MyConnection.SetKeepaliveInterval, hq0]
    | some mux =>
      simp only [Handshake.complete, Handshake.attachExisting_conn]
      simp [MyConnection.WriteMessageQueue, MyConnection.SetId, MyConnection.SetGuid,
        MyConnection.SetKeepaliveInterval, hq0]
  · unfold Handshake.reply
    split_ifs <;> rfl
  · unfold Handshake.reply
    cases hfound : GetConnectionByClientId self p.Identifier <;> simp [NewConnackMessage]

/-- C5 (evaluated at the failing input): the session table holds under "c" one session,
whose clean-session flag is set, so it holds no session with the flag false; a CONNECT of
protocol 3.1.1 with client-id "c" and clean-session = true arrives on a new connection.
The CONNACK that Handshake enqueues has bit 0 of Reserved set. -/
theorem C5_clean_connect_gets_session_present :
    (GetConnectionByClientId engineWithCleanSession "c").map (fun m => m.CleanSession) =
        some true ∧
      (connectOf "c" true).CleanSession = true ∧
      checkVersion (connectOf "c" true) = none ∧
      (Handshake noFlags 6 engineWithCleanSession (connectOf "c" true) (NewMyConnection 2)).map
          (fun r => r.2.1.Queue) =
        some [Message.connack { Reserved := 1, ReturnCode := 0 }] := by
  decide

/-- C6 (evaluated at the failing input): a CONNECT with clean-session = false onto the
kept session "c", whose outgoing table holds one qos 1 PUBLISH, re-enqueues that PUBLISH
on the session with its dup flag still clear. -/
theorem C6_replayed_publish_keeps_dup_clear :
    (Handshake noFlags 6 engineWithInflight (connectOf "c" false) (NewMyConnection 2)).map
        (fun r => r.2.2.map (fun m => m.Queue)) =
      some (some [Message.publish
        { NewPublishMessage with
          TopicName := "q", Payload := [112], QosLevel := 1, PacketIdentifier := 1,
          Dupe := false }]) := by
  decide

/-- C7 (counterexample): the client "c" completes Handshake with clean-session = true on
connection 1; a CONNECT with the same client-id and clean-session = false then completes
Handshake on connection 2, which takes the session over and clears its clean-session flag;
the disconnect cleanup of HandleConnection then runs for connection 1.  The session table
still has an entry under "c". -/
theorem C7_counterexample_session_taken_over :
    ((Handshake noFlags 5 NewMomonga (connectOf "c" true) (NewMyConnection 1)).bind
        (fun r1 => (Handshake noFlags 6 r1.1 (connectOf "c" false) (NewMyConnection 2)).map
          (fun r2 =>
            ((GetConnectionByClientId r2.1 "c").map (fun m => m.ShouldClearSession),
              r1.2.1.GetId noFlags,
              (GetConnectionByClientId (HandleConnection.cleanup noFlags r2.1 r1.2.1) "c").isSome)))) =
      some (some false, "c", true) := by
  decide

/-- C7 (as amended): when the disconnect cleanup of HandleConnection runs for a connection
while the session table holds, under the connection's id, a session whose clean-session
flag is set (the session answering to that id), then afterwards the table has no entry
under that id and the matcher holds none of the records of the session's subscription
set. -/
theorem C7_cleanup_removes_clean_session (flags : Flags) (self : Engine) (conn : MyConnection)
    (m : MmuxConnection) (hget : GetConnectionByClientId self (conn.GetId flags) = some m)
    (hclean : m.ShouldClearSession = true) (hid : m.GetId flags = conn.GetId flags) :
    GetConnectionByClientId (HandleConnection.cleanup flags self conn) (conn.GetId flags) = none ∧
      ∀ tv ∈ m.SubscribedTopics, tv ∉ (HandleConnection.cleanup flags self conn).Qlobber := by
  have hd1 : (m.Detach conn).ShouldClearSession = true := by
    unfold MmuxConnection.Detach; split_ifs <;> exact hclean
  have hd2 : (m.Detach conn).GetId flags = conn.GetId flags := by
    rw [← hid]; unfold MmuxConnection.Detach; split_ifs <;> rfl
  have hd3 : (m.Detach conn).SubscribedTopics = m.SubscribedTopics := by
    unfold MmuxConnection.Detach; split_ifs <;> rfl
  unfold HandleConnection.cleanup
  simp only [hget, hd1, if_true, hd2]
  constructor
  · simp only [RemoveConnectionByClientId, GetConnectionByClientId]
    exact mapGet_mapDelete_self _ _
  · simp only [RemoveConnectionByClientId, CleanSubscription, hd3]
    exact foldl_Remove_not_mem _ _

theorem C7_witness :
    (GetConnectionByClientId engineWithCleanSession (connOfC.GetId noFlags)).isSome = true ∧
      GetConnectionByClientId (HandleConnection.cleanup noFlags engineWithCleanSession connOfC)
          (connOfC.GetId noFlags) = none ∧
      ∀ tv ∈ [("a/b", ({ TopicFilter := "a/b", ClientId := "c", QoS := 1 } : SubscribeSet))],
        tv ∉ (HandleConnection.cleanup noFlags engineWithCleanSession connOfC).Qlobber :=
  ⟨by decide,
    C7_cleanup_removes_clean_session noFlags engineWithCleanSession connOfC
      { NewMmuxConnection with
        Identifier := "c", CleanSession := true,
        SubscribedTopics := [("a/b", { TopicFilter := "a/b", ClientId := "c", QoS := 1 })] }
      (by decide) (by decide) (by decide)⟩

/-! ## HandleConnection: theorems -/

/-- C8: when a read of the HandleConnection loop leaves a connection that holds a will,
(1) if the read returned an error and the state is not CLOSED, the loop ends there having
handed the will's PUBLISH (topic, payload and qos of the will) to SendPublishMessage once;
(2) if the read was a DISCONNECT packet, whose handler set the state to CLOSED, the loop
ends there without publishing: only the disconnect cleanup acts on the engine. -/
theorem C8_will_published_once_unless_disconnect (flags : Flags) (self self1 : Engine)
    (conn conn1 : MyConnection) (w : WillMessage)
    (read : Engine × MyConnection → Engine × MyConnection × Option ReadError)
    (rest : List (Engine × MyConnection → Engine × MyConnection × Option ReadError))
    (hw : conn1.WillMessage = some w) :
    (∀ err, read (self, conn) = (self1, conn1, some err) → conn1.GetState ≠ State.CLOSED →
      HandleConnection flags (read :: rest) self conn =
        match SendPublishMessage flags self1 (willPublish w) with
        | none => LoopResult.panicked
        | some self2 =>
          LoopResult.finished (HandleConnection.cleanup flags self2 conn1) conn1.Close) ∧
    (read (self, conn) = (self1, conn1.onDisconnect, none) →
      HandleConnection flags (read :: rest) self conn =
        LoopResult.finished (HandleConnection.cleanup flags self1 conn1.onDisconnect)
          conn1.onDisconnect.Close) ∧
    (willPublish w).TopicName = w.Topic ∧ (willPublish w).Payload = bytesOf w.Message ∧
      (willPublish w).QosLevel = (w.Qos : Int) := by
  refine ⟨?_, ?_, rfl, rfl, rfl⟩
  · intro err hread hstate
    have hs : decide (conn1.GetState = State.CLOSED) = false := by simpa using hstate
    rw [HandleConnection, hread]
    simp only [HandleConnection.afterRead, hs, MyConnection.HasWillMessage, hw,
      SendWillMessage, Option.isSome_some, if_true, true_and]
    simp only [reduceCtorEq, if_false]
    cases SendPublishMessage flags self1 (willPublish w) <;> rfl
  · intro hread
    rw [HandleConnection, hread]
    simp [HandleConnection.afterRead, MyConnection.onDisconnect, MyConnection.GetState]

theorem C8_witness :
    (HandleConnection noFlags [fun s => (s.1, s.2, some ReadError.other)] NewMomonga
        connWithWill =
      match SendPublishMessage noFlags NewMomonga
          (willPublish { Topic := "bye", Message := "gone", Qos := 0 }) with
      | none => LoopResult.panicked
      | some self2 =>
        LoopResult.finished (HandleConnection.cleanup noFlags self2 connWithWill)
          connWithWill.Close) ∧
    (HandleConnection noFlags [fun s => (s.1, s.2.onDisconnect, none)] NewMomonga
        connWithWill =
      LoopResult.finished (HandleConnection.cleanup noFlags NewMomonga connWithWill.onDisconnect)
        connWithWill.onDisconnect.Close) :=
  ⟨(C8_will_published_once_unless_disconnect noFlags NewMomonga NewMomonga connWithWill
      connWithWill { Topic := "bye", Message := "gone", Qos := 0 }
      (fun s => (s.1, s.2, some ReadError.other)) [] rfl).1 ReadError.other rfl (by decide),
    (C8_will_published_once_unless_disconnect noFlags NewMomonga NewMomonga connWithWill
      connWithWill { Topic := "bye", Message := "gone", Qos := 0 }
      (fun s => (s.1, s.2.onDisconnect, none)) [] rfl).2.1 rfl⟩

/-! ## Publish: theorems -/

/-! ## Inflight table: lemmas -/

/-- The cyclic search finds a free identifier when one exists within reach. -/
theorem MessageTable.nextFree_isSome (used : Nat → Bool) (f : Nat) (hf1 : 1 ≤ f)
    (hf2 : f ≤ 65535) (hfree : used f = false) :
    ∀ (fuel cur : Nat),
      (if cur < f then f - cur else if 65535 ≤ cur then f else 65535 - cur + f) ≤ fuel →
      ∃ id, MessageTable.nextFree used fuel cur = some id := by
  intro fuel
  induction fuel with
  | zero =>
    intro cur h
    exfalso
    split_ifs at h <;> omega
  | succ n ih =>
    intro cur h
    unfold MessageTable.nextFree
    simp only
    by_cases hu : used (if 65535 ≤ cur then 1 else cur + 1) = true
    · rw [if_pos hu]
      apply ih
      have hne : (if 65535 ≤ cur then 1 else cur + 1) ≠ f := by
        intro he
        rw [he, hfree] at hu
        cases hu
      split_ifs at h hne ⊢ <;> omega
    · rw [if_neg hu]
      exact ⟨_, rfl⟩

/-- A table with fewer than 65535 entries has a free identifier in [1, 65535]. -/
theorem MessageTable.exists_free (t : MessageTable) (h : t.Hash.length < 65535) :
    ∃ f, 1 ≤ f ∧ f ≤ 65535 ∧ t.Hash.any (fun e => decide (e.1 = f)) = false := by
  have hcard : (t.Hash.map Prod.fst).toFinset.card < (Finset.Icc 1 65535).card := by
    have h1 := List.toFinset_card_le (t.Hash.map Prod.fst)
    rw [List.length_map] at h1
    rw [Nat.card_Icc]
    omega
  have hex : ∃ f ∈ Finset.Icc 1 65535, f ∉ (t.Hash.map Prod.fst).toFinset := by
    by_contra hall
    push_neg at hall
    have := Finset.card_le_card (fun x hx => hall x hx)
    omega
  obtain ⟨f, hf, hnot⟩ := hex
  rw [Finset.mem_Icc] at hf
  refine ⟨f, hf.1, hf.2, ?_⟩
  rw [Bool.eq_false_iff]
  intro hany
  apply hnot
  rw [List.mem_toFinset, List.mem_map]
  obtain ⟨e, he, hef⟩ := List.any_eq_true.mp hany
  exact ⟨e, he, by simpa using hef⟩

theorem MessageTable.NewId_isSome (t : MessageTable) (h : t.Hash.length < 65535) :
    ∃ id, t.NewId = some (id, { t with Id := id }) := by
  obtain ⟨f, hf1, hf2, hfree⟩ := MessageTable.exists_free t h
  obtain ⟨id, hid⟩ := MessageTable.nextFree_isSome
    (fun i => t.Hash.any (fun e => decide (e.1 = i))) f hf1 hf2 hfree 65535 t.Id
    (by split_ifs <;> omega)
  exact ⟨id, by unfold MessageTable.NewId; rw [hid]; rfl⟩

theorem MessageTable.Register2_length (t : MessageTable) (id : Nat) (m : Message) (n : Nat)
    (o : OpaqueValue) : (t.Register2 id m n o).Hash.length ≤ t.Hash.length + 1 := by
  unfold MessageTable.Register2
  simp only [List.length_append, List.length_singleton]
  have := List.length_filter_le (fun e : Nat × MessageContainer => decide (e.1 ≠ id)) t.Hash
  omega

theorem SendPublishMessage.downgrade_spec (x : PublishMessage) (q : Int) :
    (SendPublishMessage.downgrade x q).QosLevel = min x.QosLevel q ∧
      (SendPublishMessage.downgrade x q).TopicName = x.TopicName ∧
      (SendPublishMessage.downgrade x q).Payload = x.Payload := by
  unfold SendPublishMessage.downgrade
  split_ifs with h
  · exact ⟨by simp only; omega, rfl, rfl⟩
  · exact ⟨by omega, rfl, rfl⟩

theorem SendPublishMessage.enqueue_spec (n : Nat) (clientId : String) (x : PublishMessage)
    (self : Engine) (hroom : self.OutGoingTable.Hash.length < 65535) :
    ∃ self' y, SendPublishMessage.enqueue n clientId x self = some self' ∧
      self'.Connections = self.Connections ∧
      self'.publishQueue = self.publishQueue ++ [y] ∧
      self'.OutGoingTable.Hash.length ≤ self.OutGoingTable.Hash.length + 1 ∧
      y.QosLevel = x.QosLevel ∧ y.Opaque = OpaqueValue.connection clientId ∧
      y.TopicName = x.TopicName ∧ y.Payload = x.Payload := by
  unfold SendPublishMessage.enqueue
  by_cases hq : x.QosLevel > 0
  · obtain ⟨id, hid⟩ := MessageTable.NewId_isSome self.OutGoingTable hroom
    simp only [hq, if_true, hid]
    refine ⟨_, _, rfl, rfl, rfl, ?_, rfl, rfl, rfl, rfl⟩
    cases x.Opaque <;> simp only [Nat.le_add_right]
    exact MessageTable.Register2_length _ _ _ _ _
  · simp only [hq, if_false]
    exact ⟨_, _, rfl, rfl, rfl, Nat.le_add_right _ _, rfl, rfl, rfl, rfl⟩

theorem SendPublishMessage.loop_spec (msg : PublishMessage) (n : Nat) :
    ∀ (targets : List SubscribeSet) (dp : List String) (self : Engine),
      self.OutGoingTable.Hash.length + targets.length < 65535 →
      ∃ self' copies, SendPublishMessage.loop msg n targets dp self = some self' ∧
        self'.Connections = self.Connections ∧
        self'.publishQueue = self.publishQueue ++ copies ∧
        List.Forall₂ (isCopyFor msg) (copyRecords self.Connections targets dp) copies := by
  intro targets
  induction targets with
  | nil =>
    intro dp self _
    exact ⟨self, [], rfl, rfl, by simp, List.Forall₂.nil⟩
  | cons r rest ih =>
    intro dp self hroom
    simp only [List.length_cons] at hroom
    unfold SendPublishMessage.loop copyRecords
    by_cases hdp : r.ClientId ∈ dp
    · simp only [hdp, if_true]
      exact ih dp self (by omega)
    · simp only [hdp, if_false, GetConnectionByClientId]
      cases hget : mapGet self.Connections r.ClientId with
      | none =>
        simp only [Option.isSome_none, Bool.false_eq_true, if_false]
        exact ih _ self (by omega)
      | some cn =>
        simp only [Option.isSome_some, if_true, CopyPublishMessage]
        obtain ⟨self1, y, he, hc1, hq1, hl1, hy1, hy2, hy3, hy4⟩ :=
          SendPublishMessage.enqueue_spec n r.ClientId
            (SendPublishMessage.downgrade msg r.QoS) self (by omega)
        obtain ⟨hd1, hd2, hd3⟩ := SendPublishMessage.downgrade_spec msg r.QoS
        obtain ⟨self', copies, hl, hc, hq, hf⟩ := ih (r.ClientId :: dp) self1 (by omega)
        refine ⟨self', y :: copies, ?_, ?_, ?_, ?_⟩
        · simp only [he]; exact hl
        · rw [hc, hc1]
        · rw [hq, hq1]; simp
        · rw [hc1] at hf
          exact List.Forall₂.cons ⟨by rw [hy1, hd1], hy2, by rw [hy3, hd2], by rw [hy4, hd3]⟩ hf

theorem copyRecords_sublist (conns : List (String × MmuxConnection)) :
    ∀ (targets : List SubscribeSet) (dp : List String),
      (copyRecords conns targets dp).Sublist targets := by
  intro targets
  induction targets with
  | nil => intro dp; exact List.Sublist.slnil
  | cons r rest ih =>
    intro dp
    unfold copyRecords
    split_ifs
    · exact (ih dp).cons r
    · exact (ih _).cons₂ r
    · exact (ih _).cons r

theorem copyRecords_not_seen (conns : List (String × MmuxConnection)) :
    ∀ (targets : List SubscribeSet) (dp : List String),
      ∀ r ∈ copyRecords conns targets dp, r.ClientId ∉ dp := by
  intro targets
  induction targets with
  | nil => intro dp r hr; cases hr
  | cons t rest ih =>
    intro dp r hr
    unfold copyRecords at hr
    split_ifs at hr with h1 h2
    · exact ih dp r hr
    · rcases List.mem_cons.mp hr with h | h
      · rw [h]; exact h1
      · exact fun hmem => ih _ r h (List.mem_cons_of_mem _ hmem)
    · exact fun hmem => ih _ r hr (List.mem_cons_of_mem _ hmem)

theorem copyRecords_nodup (conns : List (String × MmuxConnection)) :
    ∀ (targets : List SubscribeSet) (dp : List String),
      ((copyRecords conns targets dp).map (fun r => r.ClientId)).Nodup := by
  intro targets
  induction targets with
  | nil => intro dp; exact List.nodup_nil
  | cons t rest ih =>
    intro dp
    unfold copyRecords
    split_ifs with h1 h2
    · exact ih dp
    · rw [List.map_cons, List.nodup_cons]
      refine ⟨?_, ih _⟩
      intro hmem
      obtain ⟨r, hr, hid⟩ := List.mem_map.mp hmem
      exact copyRecords_not_seen conns rest _ r hr (by rw [hid]; exact List.mem_cons_self _ _)
    · exact ih _

theorem copyRecords_first (conns : List (String × MmuxConnection)) :
    ∀ (targets : List SubscribeSet) (dp : List String),
      ∀ r ∈ copyRecords conns targets dp,
        targets.find? (fun t => decide (t.ClientId = r.ClientId)) = some r := by
  intro targets
  induction targets with
  | nil => intro dp r hr; cases hr
  | cons t rest ih =>
    intro dp r hr
    have hskip : ∀ dp', r ∈ copyRecords conns rest dp' → t.ClientId ∈ dp' →
        (t :: rest).find? (fun t => decide (t.ClientId = r.ClientId)) = some r := by
      intro dp' hr' ht
      have hne : ¬ t.ClientId = r.ClientId := by
        intro he
        exact copyRecords_not_seen conns rest dp' r hr' (by rw [← he]; exact ht)
      rw [List.find?_cons_of_neg _ (by simpa using hne)]
      exact ih dp' r hr'
    unfold copyRecords at hr
    split_ifs at hr with h1 h2
    · exact hskip dp hr h1
    · rcases List.mem_cons.mp hr with h | h
      · rw [h]; simp
      · exact hskip _ h (List.mem_cons_self _ _)
    · exact hskip _ hr (List.mem_cons_self _ _)

theorem copyRecords_session (conns : List (String × MmuxConnection)) :
    ∀ (targets : List SubscribeSet) (dp : List String),
      ∀ r ∈ copyRecords conns targets dp, (mapGet conns r.ClientId).isSome = true := by
  intro targets
  induction targets with
  | nil => intro dp r hr; cases hr
  | cons t rest ih =>
    intro dp r hr
    unfold copyRecords at hr
    split_ifs at hr with h1 h2
    · exact ih dp r hr
    · rcases List.mem_cons.mp hr with h | h
      · rw [h]; exact h2
      · exact ih _ r h
    · exact ih _ r hr

theorem fanoutTargets_sublist (self : Engine) (msg : PublishMessage) :
    (fanoutTargets self msg).Sublist (self.Qlobber.Match msg.TopicName) := by
  unfold fanoutTargets
  split_ifs
  · exact List.nil_sublist _
  · exact List.nil_sublist _
  · exact List.Sublist.refl _

/-- The records that get a copy are exactly the first records of their client-id in
`targets` whose client is not in `dp` and has a session in the table. -/
theorem copyRecords_mem_iff (conns : List (String × MmuxConnection)) :
    ∀ (targets : List SubscribeSet) (dp : List String) (r : SubscribeSet),
      r ∈ copyRecords conns targets dp ↔
        (targets.find? (fun t => decide (t.ClientId = r.ClientId)) = some r ∧
          r.ClientId ∉ dp ∧ (mapGet conns r.ClientId).isSome = true) := by
  intro targets dp r
  constructor
  · intro hr
    exact ⟨copyRecords_first conns targets dp r hr, copyRecords_not_seen conns targets dp r hr,
      copyRecords_session conns targets dp r hr⟩
  · revert dp
    induction targets with
    | nil => intro dp h; simp at h
    | cons t rest ih =>
      intro dp h
      obtain ⟨hf, hdp, hs⟩ := h
      unfold copyRecords
      by_cases ht : t.ClientId = r.ClientId
      · rw [List.find?_cons_of_pos _ (by simpa using ht)] at hf
        have htr : t = r := by simpa using hf
        subst htr
        rw [if_neg hdp, if_pos hs]
        exact List.mem_cons_self _ _
      · rw [List.find?_cons_of_neg _ (by simpa using ht)] at hf
        have hdp' : r.ClientId ∉ t.ClientId :: dp := by
          intro hmem
          rcases List.mem_cons.mp hmem with h | h
          · exact ht h.symm
          · exact hdp h
        split_ifs
        · exact ih dp ⟨hf, hdp, hs⟩
        · exact List.mem_cons_of_mem _ (ih _ ⟨hf, hdp', hs⟩)
        · exact ih _ ⟨hf, hdp', hs⟩

/-- The fan-out of the standard path: the call returns and the publish queue grows by one
copy for each record of `copyRecords`, in order. -/
theorem SendPublishMessage.standard_spec (flags : Flags) (self : Engine) (msg : PublishMessage)
    (hflag : ¬ (flags.experimental_qos1 = true ∧ msg.QosLevel = 1))
    (hroom : self.OutGoingTable.Hash.length + (self.Qlobber.Match msg.TopicName).length < 65535) :
    ∃ self' copies, SendPublishMessage flags self msg = some self' ∧
      self'.publishQueue = self.publishQueue ++ copies ∧
      List.Forall₂ (isCopyFor msg)
        (copyRecords self.Connections (fanoutTargets self msg) []) copies := by
  have hfan : ∀ s : Engine, s.OutGoingTable = self.OutGoingTable → s.Qlobber = self.Qlobber →
      s.Connections = self.Connections → s.publishQueue = self.publishQueue →
      ∃ self' copies, SendPublishMessage.fanout flags s msg = some self' ∧
        self'.publishQueue = self.publishQueue ++ copies ∧
        List.Forall₂ (isCopyFor msg)
          (copyRecords self.Connections (self.Qlobber.Match msg.TopicName) []) copies := by
    intro s h1 h2 h3 h4
    unfold SendPublishMessage.fanout
    rw [if_neg hflag]
    obtain ⟨self', copies, hl, _, hq, hf⟩ := SendPublishMessage.loop_spec msg
      (s.Qlobber.Match msg.TopicName).length (s.Qlobber.Match msg.TopicName) [] s
      (by rw [h1, h2]; exact hroom)
    rw [h2, h3] at hf
    rw [h2] at hl
    exact ⟨self', copies, by rw [h2]; exact hl, by rw [hq, h4], hf⟩
  unfold SendPublishMessage fanoutTargets
  by_cases h1 : msg.TopicName.data.length < 1
  · rw [if_pos h1, if_pos h1]
    exact ⟨self, [], rfl, by simp, by simp [copyRecords]⟩
  · rw [if_neg h1, if_neg h1]
    by_cases h2 : msg.Retain > 0
    · by_cases h3 : msg.Payload.length = 0
      · rw [if_pos h2, if_pos h3, if_pos ⟨h2, h3⟩]
        exact ⟨_, [], rfl, by simp, by simp [copyRecords]⟩
      · rw [if_pos h2, if_neg h3, if_neg (fun h => h3 h.2)]
        exact hfan _ rfl rfl rfl rfl
    · rw [if_neg h2, if_neg (fun h => h2 h.1)]
      exact hfan _ rfl rfl rfl rfl

theorem mapGet_mapSet_ne {α : Type} (m : List (String × α)) (k k' : String) (v : α)
    (h : k' ≠ k) : mapGet (mapSet m k v) k' = mapGet m k' := by
  unfold mapSet
  split_ifs
  · exact mapGet_mapUpdate_ne m k k' v h
  · unfold mapGet
    rw [List.find?_append]
    have : List.find? (fun e : String × α => decide (e.1 = k')) [(k, v)] = none := by
      rw [List.find?_cons_of_neg _ (by simpa using fun h' : k = k' => h h'.symm)]
      rfl
    rw [this]
    simp

theorem sessionAnswers_mapSet (flags : Flags) (conns : List (String × MmuxConnection))
    (t : String) (conn : MmuxConnection) (m : Message) (k : String)
    (hget : mapGet conns t = some conn) :
    sessionAnswers flags (mapSet conns t (conn.WriteMessageQueue m)) k =
      sessionAnswers flags conns k := by
  unfold sessionAnswers
  by_cases hk : k = t
  · rw [hk, mapGet_mapSet_self, hget]
    rfl
  · rw [mapGet_mapSet_ne _ _ _ _ hk]

theorem qos1Delivery_congr (flags : Flags) (msg : PublishMessage)
    (conns conns' : List (String × MmuxConnection)) (targets : List SubscribeSet)
    (dp : List String) (k : String) (extra : List Message)
    (hc : sessionAnswers flags conns' k = sessionAnswers flags conns k)
    (h : qos1Delivery flags msg conns' targets dp k extra) :
    qos1Delivery flags msg conns targets dp k extra := by
  unfold qos1Delivery at h ⊢
  rw [hc] at h
  exact h

theorem qos1Delivery_seen (flags : Flags) (msg : PublishMessage)
    (conns : List (String × MmuxConnection)) (t : SubscribeSet) (rest : List SubscribeSet)
    (dp : List String) (k : String) (extra : List Message)
    (h : qos1Delivery flags msg conns rest dp k extra) (ht : t.ClientId ∈ dp) :
    qos1Delivery flags msg conns (t :: rest) dp k extra := by
  unfold qos1Delivery at h ⊢
  by_cases hk : t.ClientId = k
  · rw [List.find?_cons_of_pos _ (by simpa using hk)]
    have hkdp : k ∈ dp := hk ▸ ht
    simp only [hkdp, true_or, if_true] at h ⊢
    cases hf : rest.find? (fun t => decide (t.ClientId = k)) with
    | none => rw [hf] at h; exact h
    | some r => rw [hf] at h; exact h
  · rw [List.find?_cons_of_neg _ (by simpa using hk)]
    exact h

theorem qos1Delivery_other (flags : Flags) (msg : PublishMessage)
    (conns : List (String × MmuxConnection)) (t : SubscribeSet) (rest : List SubscribeSet)
    (dp : List String) (k : String) (extra : List Message)
    (h : qos1Delivery flags msg conns rest (t.ClientId :: dp) k extra) (hk : ¬ t.ClientId = k) :
    qos1Delivery flags msg conns (t :: rest) dp k extra := by
  unfold qos1Delivery at h ⊢
  rw [List.find?_cons_of_neg _ (by simpa using hk)]
  have hmem : k ∈ t.ClientId :: dp ↔ k ∈ dp := by
    rw [List.mem_cons]
    exact ⟨fun h' => h'.resolve_left (fun he => hk he.symm), Or.inr⟩
  cases hf : rest.find? (fun t => decide (t.ClientId = k)) with
  | none => rw [hf] at h; exact h
  | some r =>
    rw [hf] at h
    simp only [hmem] at h
    exact h

theorem qos1Delivery_nil_of_seen (flags : Flags) (msg : PublishMessage)
    (conns : List (String × MmuxConnection)) (targets : List SubscribeSet)
    (dp : List String) (k : String) (extra : List Message)
    (h : qos1Delivery flags msg conns targets dp k extra) (hk : k ∈ dp) : extra = [] := by
  unfold qos1Delivery at h
  cases hf : targets.find? (fun t => decide (t.ClientId = k)) with
  | none => rw [hf] at h; exact h
  | some r => rw [hf] at h; simpa [hk] using h

/-- The sender of the `experimental.qos1` path, when every record's client has a session
and the per-client tables have room: the call returns, the publish queue is untouched and
the queue of every session grows by exactly what `qos1Delivery` says. -/
theorem SendPublishMessage.qos1Sender_spec (flags : Flags) (msg : PublishMessage) :
    ∀ (targets : List SubscribeSet) (dp : List String) (self : Engine),
      (∀ r ∈ targets, (mapGet self.Connections r.ClientId).isSome = true) →
      (∀ k, k ∉ dp →
        ((mapGet self.InflightTable k).getD NewMessageTable).Hash.length < 65535) →
      ∃ self', SendPublishMessage.qos1Sender flags msg targets dp self = some self' ∧
        self'.publishQueue = self.publishQueue ∧
        ∀ k, ∃ extra, (mapGet self'.Connections k).map (fun c => c.Queue) =
            (mapGet self.Connections k).map (fun c => c.Queue ++ extra) ∧
          qos1Delivery flags msg self.Connections targets dp k extra := by
  intro targets
  induction targets with
  | nil =>
    intro dp self _ _
    exact ⟨self, rfl, rfl, fun k => ⟨[], by simp, by simp [qos1Delivery]⟩⟩
  | cons t rest ih =>
    intro dp self hsess hroom
    have hrest : ∀ r ∈ rest, (mapGet self.Connections r.ClientId).isSome = true :=
      fun r hr => hsess r (List.mem_cons_of_mem _ hr)
    have hroom' : ∀ k, k ∉ t.ClientId :: dp →
        ((mapGet self.InflightTable k).getD NewMessageTable).Hash.length < 65535 :=
      fun k hk => hroom k (fun hmem => hk (List.mem_cons_of_mem _ hmem))
    obtain ⟨conn, hget⟩ := Option.isSome_iff_exists.mp (hsess t (List.mem_cons_self _ _))
    -- the step taken when the target writes the packet `y` on its session
    have hwrite : ∀ (y : PublishMessage) (self1 : Engine),
        self1.Connections = mapSet self.Connections t.ClientId
          (conn.WriteMessageQueue (Message.publish y)) →
        self1.publishQueue = self.publishQueue →
        (∀ k, k ∉ t.ClientId :: dp →
          ((mapGet self1.InflightTable k).getD NewMessageTable).Hash.length < 65535) →
        t.ClientId ∉ dp → conn.GetId flags = t.ClientId →
        y.QosLevel = t.QoS → y.TopicName = msg.TopicName → y.Payload = msg.Payload →
        ∃ self', SendPublishMessage.qos1Sender flags msg rest (t.ClientId :: dp) self1 =
            some self' ∧
          self'.publishQueue = self.publishQueue ∧
          ∀ k, ∃ extra, (mapGet self'.Connections k).map (fun c => c.Queue) =
              (mapGet self.Connections k).map (fun c => c.Queue ++ extra) ∧
            qos1Delivery flags msg self.Connections (t :: rest) dp k extra := by
      intro y self1 hc hpq hroom1 hdp hgid hy1 hy2 hy3
      have hsess1 : ∀ r ∈ rest, (mapGet self1.Connections r.ClientId).isSome = true := by
        intro r hr
        by_cases he : r.ClientId = t.ClientId
        · rw [hc, he, mapGet_mapSet_self]; rfl
        · rw [hc, mapGet_mapSet_ne _ _ _ _ he]; exact hrest r hr
      obtain ⟨self', hcall, hq', hall⟩ := ih (t.ClientId :: dp) self1 hsess1 hroom1
      refine ⟨self', hcall, by rw [hq', hpq], fun k => ?_⟩
      obtain ⟨extra, he, hx0⟩ := hall k
      have hx := qos1Delivery_congr flags msg self.Connections self1.Connections rest
        (t.ClientId :: dp) k extra
        (by rw [hc]; exact sessionAnswers_mapSet flags _ _ conn _ k hget) hx0
      by_cases hk : t.ClientId = k
      · have hnil := qos1Delivery_nil_of_seen flags msg _ _ _ _ _ hx
          (by rw [← hk]; exact List.mem_cons_self _ _)
        subst hnil
        refine ⟨[Message.publish y], ?_, ?_⟩
        · rw [he, hc, ← hk, mapGet_mapSet_self, hget]
          simp [MmuxConnection.WriteMessageQueue]
        · unfold qos1Delivery
          rw [List.find?_cons_of_pos _ (by simpa using hk)]
          have hkdp : k ∉ dp := hk ▸ hdp
          have hans : sessionAnswers flags self.Connections k = true := by
            unfold sessionAnswers
            rw [← hk, hget]
            simp [hgid]
          simp only [hkdp, hans, false_or, Bool.true_eq_false, if_false]
          exact ⟨y, rfl, hy1, hy2, hy3⟩
      · refine ⟨extra, ?_, qos1Delivery_other flags msg _ t rest dp k extra hx hk⟩
        rw [he, hc, mapGet_mapSet_ne _ _ _ _ (fun h' => hk h'.symm)]
    unfold SendPublishMessage.qos1Sender
    by_cases hdp : t.ClientId ∈ dp
    · simp only [hdp, if_true]
      obtain ⟨self', hcall, hq', hall⟩ := ih dp self hrest hroom
      refine ⟨self', hcall, hq', fun k => ?_⟩
      obtain ⟨extra, he, hx⟩ := hall k
      exact ⟨extra, he, qos1Delivery_seen flags msg _ t rest dp k extra hx hdp⟩
    · simp only [hdp, if_false, CopyPublishMessage, GetConnectionByClientId, hget]
      by_cases hgid : conn.GetId flags = t.ClientId
      · simp only [hgid, ne_eq, not_true_eq_false, if_false]
        by_cases hq0 : t.QoS = 0
        · simp only [hq0, if_true]
          exact hwrite _ _ rfl rfl hroom' hdp hgid hq0.symm rfl rfl
        · simp only [hq0, if_false]
          obtain ⟨id, hid⟩ := MessageTable.NewId_isSome _ (hroom t.ClientId hdp)
          rw [hid]
          simp only
          refine hwrite _ _ rfl rfl ?_ hdp hgid rfl rfl rfl
          intro k hk
          have hne : k ≠ t.ClientId := fun he => hk (he ▸ List.mem_cons_self _ _)
          simp only
          rw [mapGet_mapSet_ne _ _ _ _ hne]
          exact hroom' k hk
      · simp only [ne_eq, hgid, not_false_eq_true, if_true]
        obtain ⟨self', hcall, hq', hall⟩ := ih (t.ClientId :: dp) self hrest hroom'
        refine ⟨self', hcall, hq', fun k => ?_⟩
        obtain ⟨extra, he, hx⟩ := hall k
        by_cases hk : t.ClientId = k
        · have hnil := qos1Delivery_nil_of_seen flags msg _ _ _ _ _ hx
            (by rw [← hk]; exact List.mem_cons_self _ _)
          subst hnil
          refine ⟨[], he, ?_⟩
          unfold qos1Delivery
          rw [List.find?_cons_of_pos _ (by simpa using hk)]
          have hans : sessionAnswers flags self.Connections k = false := by
            unfold sessionAnswers
            rw [← hk, hget]
            simpa using hgid
          simp only [hans, or_true, if_true]
        · exact ⟨extra, he, qos1Delivery_other flags msg _ t rest dp k extra hx hk⟩

theorem copies_addressed_to_records (msg : PublishMessage) (recs : List SubscribeSet)
    (copies : List PublishMessage) (h : List.Forall₂ (isCopyFor msg) recs copies) :
    copies.map (fun x => x.Opaque) = recs.map (fun r => OpaqueValue.connection r.ClientId) := by
  induction h with
  | nil => rfl
  | cons hrx _ ih => simp only [List.map_cons, ih, hrx.2.1]

/-- C9: with experimental.qos1 disabled (and room for the identifiers in the engine's
outgoing table) SendPublishMessage returns and the publish queue grows by exactly one copy
for each record of copyRecords, in matcher order: records the matcher returned for the
topic, each the first of its client-id among them.  The copy made for a record is
addressed to the record's client, carries the publish's topic and payload, and its
QosLevel is the minimum of the publish's QosLevel and that record's QoS; so the QoS of the
copy a client gets is governed by the first matcher record of that client. -/
theorem C9_copy_qos_is_min_of_publish_and_record (flags : Flags) (self : Engine)
    (msg : PublishMessage) (hflag : flags.experimental_qos1 = false)
    (hroom : self.OutGoingTable.Hash.length + (self.Qlobber.Match msg.TopicName).length < 65535) :
    ∃ self' copies, SendPublishMessage flags self msg = some self' ∧
      self'.publishQueue = self.publishQueue ++ copies ∧
      List.Forall₂
        (fun r x => x.QosLevel = min msg.QosLevel r.QoS ∧
          x.Opaque = OpaqueValue.connection r.ClientId ∧
          x.TopicName = msg.TopicName ∧ x.Payload = msg.Payload)
        (copyRecords self.Connections (fanoutTargets self msg) []) copies ∧
      (copyRecords self.Connections (fanoutTargets self msg) []).Sublist
        (self.Qlobber.Match msg.TopicName) ∧
      ∀ r ∈ copyRecords self.Connections (fanoutTargets self msg) [],
        (fanoutTargets self msg).find? (fun t => decide (t.ClientId = r.ClientId)) = some r := by
  obtain ⟨self', copies, hcall, hq, hf⟩ :=
    SendPublishMessage.standard_spec flags self msg (by simp [hflag]) hroom
  exact ⟨self', copies, hcall, hq, hf.imp (fun _ _ h => h),
    (copyRecords_sublist _ _ _).trans (fanoutTargets_sublist self msg),
    fun r hr => copyRecords_first _ _ _ r hr⟩

theorem C9_witness :
    ∃ self' copies,
      SendPublishMessage noFlags engineWithOverlap (publishOnA 2) = some self' ∧
      self'.publishQueue = engineWithOverlap.publishQueue ++ copies ∧
      List.Forall₂
        (fun r x => x.QosLevel = min (publishOnA 2).QosLevel r.QoS ∧
          x.Opaque = OpaqueValue.connection r.ClientId ∧
          x.TopicName = (publishOnA 2).TopicName ∧ x.Payload = (publishOnA 2).Payload)
        (copyRecords engineWithOverlap.Connections
          (fanoutTargets engineWithOverlap (publishOnA 2)) []) copies ∧
      (copyRecords engineWithOverlap.Connections
          (fanoutTargets engineWithOverlap (publishOnA 2)) []).Sublist
        (engineWithOverlap.Qlobber.Match (publishOnA 2).TopicName) ∧
      ∀ r ∈ copyRecords engineWithOverlap.Connections
          (fanoutTargets engineWithOverlap (publishOnA 2)) [],
        (fanoutTargets engineWithOverlap (publishOnA 2)).find?
          (fun t => decide (t.ClientId = r.ClientId)) = some r :=
  C9_copy_qos_is_min_of_publish_and_record noFlags engineWithOverlap (publishOnA 2) rfl
    (by decide)

/-- C10 (counterexample): the client "c" holds two subscriptions matching the topic "a",
the first in matcher order at qos 1, the second at qos 2.  A PUBLISH on "a" at qos 0 on the
standard path queues one copy, for "c", and its QosLevel is 0, not the QoS 1 of the first
record. -/
theorem C10_counterexample_copy_below_record_qos :
    (engineWithOverlap.Qlobber.Match "a").map (fun r => (r.ClientId, r.QoS)) =
        [("c", 1), ("c", 2)] ∧
      (SendPublishMessage noFlags engineWithOverlap (publishOnA 0)).map
          (fun e => e.publishQueue.map (fun x => (x.Opaque, x.QosLevel))) =
        some [(OpaqueValue.connection "c", 0)] := by
  decide

/-- C10 (as amended): SendPublishMessage queues at most one copy per client-id, made for the
first record of that client in matcher order; later records of the client are skipped.
Standard path (room in the engine's outgoing table): the call returns and the publish
queue grows by exactly one copy for each record of copyRecords, which are exactly the
records that are the first of their client-id among those the fan-out works on and whose
client has a session; the copy is addressed to that client and carries the publish's QoS
capped by the record's QoS, and no two copies have the same addressee.
experimental.qos1 path (qos 1 publish, every matched client has a session, the per-client
tables have room): the call returns, the publish queue is unchanged, and the queue of the
session under a client-id grows by exactly one PUBLISH, made for the first record of that
client at that record's QoS, when a record carries the client-id and the session answers
to it, and by nothing otherwise. -/
theorem C10_one_copy_per_client_for_first_record (flags : Flags) (self : Engine)
    (msg : PublishMessage) :
    (¬ (flags.experimental_qos1 = true ∧ msg.QosLevel = 1) →
      self.OutGoingTable.Hash.length + (self.Qlobber.Match msg.TopicName).length < 65535 →
      ∃ self' copies, SendPublishMessage flags self msg = some self' ∧
        self'.publishQueue = self.publishQueue ++ copies ∧
        List.Forall₂ (fun r x => x.Opaque = OpaqueValue.connection r.ClientId ∧
            x.QosLevel = min msg.QosLevel r.QoS)
          (copyRecords self.Connections (fanoutTargets self msg) []) copies ∧
        (copies.map (fun x => x.Opaque)).Nodup ∧
        ∀ r, r ∈ copyRecords self.Connections (fanoutTargets self msg) [] ↔
          ((fanoutTargets self msg).find? (fun t => decide (t.ClientId = r.ClientId)) = some r ∧
            (mapGet self.Connections r.ClientId).isSome = true)) ∧
    (flags.experimental_qos1 = true → msg.QosLevel = 1 →
      (∀ r ∈ self.Qlobber.Match msg.TopicName,
        (mapGet self.Connections r.ClientId).isSome = true) →
      (∀ k, ((mapGet self.InflightTable k).getD NewMessageTable).Hash.length < 65535) →
      ∃ self', SendPublishMessage flags self msg = some self' ∧
        self'.publishQueue = self.publishQueue ∧
        ∀ k, ∃ extra, (mapGet self'.Connections k).map (fun c => c.Queue) =
            (mapGet self.Connections k).map (fun c => c.Queue ++ extra) ∧
          qos1Delivery flags msg self.Connections (fanoutTargets self msg) [] k extra) := by
  constructor
  · intro hstd hroom
    obtain ⟨self', copies, hcall, hq, hf⟩ :=
      SendPublishMessage.standard_spec flags self msg hstd hroom
    refine ⟨self', copies, hcall, hq, hf.imp (fun _ _ h => ⟨h.2.1, h.1⟩), ?_, ?_⟩
    · rw [copies_addressed_to_records msg _ copies hf]
      have hnd := copyRecords_nodup self.Connections (fanoutTargets self msg) []
      have := hnd.map (f := OpaqueValue.connection) (fun a b h => by cases h; rfl)
      simpa [List.map_map] using this
    · intro r
      rw [copyRecords_mem_iff]
      simp
  · intro hflag hqos hsessions hroom
    have hnone : ∀ k, ∃ extra : List Message,
        (mapGet self.Connections k).map (fun c => c.Queue) =
          (mapGet self.Connections k).map (fun c => c.Queue ++ extra) ∧
        qos1Delivery flags msg self.Connections [] [] k extra :=
      fun k => ⟨[], by simp, by simp [qos1Delivery]⟩
    have hfan : ∀ s : Engine, s.Qlobber = self.Qlobber → s.Connections = self.Connections →
        s.InflightTable = self.InflightTable → s.publishQueue = self.publishQueue →
        ∃ self', SendPublishMessage.fanout flags s msg = some self' ∧
          self'.publishQueue = self.publishQueue ∧
          ∀ k, ∃ extra, (mapGet self'.Connections k).map (fun c => c.Queue) =
              (mapGet self.Connections k).map (fun c => c.Queue ++ extra) ∧
            qos1Delivery flags msg self.Connections (self.Qlobber.Match msg.TopicName) [] k extra := by
      intro s h1 h2 h3 h4
      unfold SendPublishMessage.fanout
      rw [if_pos ⟨hflag, hqos⟩, h1]
      obtain ⟨self', hcall, hpq, hall⟩ := SendPublishMessage.qos1Sender_spec flags msg
        (self.Qlobber.Match msg.TopicName) [] s (by rw [h2]; exact hsessions)
        (fun k _ => by rw [h3]; exact hroom k)
      refine ⟨self', hcall, by rw [hpq, h4], fun k => ?_⟩
      obtain ⟨extra, he, hx⟩ := hall k
      exact ⟨extra, by rw [he, h2], by rw [← h2]; exact hx⟩
    unfold SendPublishMessage fanoutTargets
    by_cases h1 : msg.TopicName.data.length < 1
    · rw [if_pos h1, if_pos h1]
      exact ⟨self, rfl, rfl, hnone⟩
    · rw [if_neg h1, if_neg h1]
      by_cases h2 : msg.Retain > 0
      · by_cases h3 : msg.Payload.length = 0
        · rw [if_pos h2, if_pos h3, if_pos ⟨h2, h3⟩]
          exact ⟨_, rfl, rfl, hnone⟩
        · rw [if_pos h2, if_neg h3, if_neg (fun h => h3 h.2)]
          exact hfan _ rfl rfl rfl rfl
      · rw [if_neg h2, if_neg (fun h => h2 h.1)]
        exact hfan _ rfl rfl rfl rfl

theorem C10_witness :
    (∃ self' copies,
      SendPublishMessage noFlags engineWithOverlap (publishOnA 2) = some self' ∧
      self'.publishQueue = engineWithOverlap.publishQueue ++ copies ∧
      List.Forall₂ (fun r x => x.Opaque = OpaqueValue.connection r.ClientId ∧
          x.QosLevel = min (publishOnA 2).QosLevel r.QoS)
        (copyRecords engineWithOverlap.Connections
          (fanoutTargets engineWithOverlap (publishOnA 2)) []) copies ∧
      (copies.map (fun x => x.Opaque)).Nodup ∧
      ∀ r, r ∈ copyRecords engineWithOverlap.Connections
            (fanoutTargets engineWithOverlap (publishOnA 2)) [] ↔
        ((fanoutTargets engineWithOverlap (publishOnA 2)).find?
            (fun t => decide (t.ClientId = r.ClientId)) = some r ∧
          (mapGet engineWithOverlap.Connections r.ClientId).isSome = true)) ∧
    (∃ self', SendPublishMessage qos1Flags engineWithOverlap (publishOnA 1) = some self' ∧
      self'.publishQueue = engineWithOverlap.publishQueue ∧
      ∀ k, ∃ extra, (mapGet self'.Connections k).map (fun c => c.Queue) =
          (mapGet engineWithOverlap.Connections k).map (fun c => c.Queue ++ extra) ∧
        qos1Delivery qos1Flags (publishOnA 1) engineWithOverlap.Connections
          (fanoutTargets engineWithOverlap (publishOnA 1)) [] k extra) :=
  ⟨(C10_one_copy_per_client_for_first_record noFlags engineWithOverlap (publishOnA 2)).1
      (by decide) (by decide),
    (C10_one_copy_per_client_for_first_record qos1Flags engineWithOverlap (publishOnA 1)).2
      rfl rfl (by decide) (fun _ => by show (0 : Nat) < 65535; omega)⟩

/-! ## Unsubscribe and retained delivery: theorems -/

/-- C11 (evaluated at the failing input): client "c" subscribes to "a" and unsubscribes
from it.  After Unsubscribe the matcher holds no record, but the session's subscription set
still holds "a"; a later SUBSCRIBE to "a" is skipped as a duplicate, so the matcher stays
empty. -/
theorem C11_unsubscribe_keeps_filter_in_subscription_set :
    afterUnsubscribe.map (fun r => (r.1.Qlobber, r.2.IsSubscribed "a")) = some ([], true) ∧
    (afterUnsubscribe.bind
        (fun r => Subscribe goRegexp noFlags r.1 (subscribeTo 3 "a" 0) r.2)).map
      (fun r => r.1.Qlobber) = some [] := by
  decide

/-- C12 (evaluated at the failing input): the retained store holds under "r" a PUBLISH
stored with qos 2 and client "c" subscribes to "r" at qos 0.  The copy that Subscribe
enqueues after the SUBACK has QosLevel 2, the stored one, not the granted 0. -/
theorem C12_retained_copy_keeps_stored_qos :
    (Subscribe goRegexp noFlags engineWithRetained (subscribeTo 1 "r" 0) sessionC).map
        (fun r => r.2.Queue) =
      some [Message.suback { PacketIdentifier := 1, Qos := [0, 0] },
        Message.publish
          { NewPublishMessage with
            TopicName := "r", Payload := [107], QosLevel := 2, Retain := 1,
            PacketIdentifier := 1 }] := by
  decide

/-- C13 (evaluated at the failing input): client "c" is subscribed to "#" and a PUBLISH
arrives on "$SYS/broker/uptime".  SendPublishMessage queues a copy for "c". -/
theorem C13_wildcard_subscriber_gets_dollar_topic :
    (SendPublishMessage noFlags engineWithWildcard
        { NewPublishMessage with TopicName := "$SYS/broker/uptime", Payload := [49] }).map
        (fun e => e.publishQueue) =
      some [{ NewPublishMessage with
        TopicName := "$SYS/broker/uptime", Payload := [49],
        Opaque := OpaqueValue.connection "c" }] := by
  decide

/-! ## Version check and handshake errors: theorems -/

/-- C14: checkVersion returns no error exactly for the magic "MQTT" (bytes 77 81 84 84)
with version 4 and the magic "MQIsdp" (bytes 77 81 73 115 100 112) with version 3. -/
theorem C14_checkVersion_accepts_exactly_two_pairs (p : ConnectMessage) :
    (checkVersion p = none ↔
      (p.Magic = [77, 81, 84, 84] ∧ p.Version = 4) ∨
      (p.Magic = [77, 81, 73, 115, 100, 112] ∧ p.Version = 3)) ∧
    bytesOf "MQTT" = [77, 81, 84, 84] ∧ bytesOf "MQIsdp" = [77, 81, 73, 115, 100, 112] := by
  have h1 : V311_MAGIC = [77, 81, 84, 84] := by decide
  have h2 : V3_MAGIC = [77, 81, 73, 115, 100, 112] := by decide
  refine ⟨?_, by decide, by decide⟩
  unfold checkVersion
  rw [h1, h2]
  simp only [V311_VERSION, V3_VERSION]
  by_cases hm : [77, 81, 84, 84] = p.Magic
  · rw [if_pos hm]
    have hne : ¬ ([77, 81, 73, 115, 100, 112] = p.Magic) := by
      rw [← hm]; decide
    by_cases hv : p.Version = 4
    · simp [hv, hm.symm]
    · simp [hv, ← hm]
  · rw [if_neg hm]
    have hm' : ¬ p.Magic = [77, 81, 84, 84] := fun h => hm h.symm
    by_cases hm3 : [77, 81, 73, 115, 100, 112] = p.Magic
    · rw [if_pos hm3]
      by_cases hv : p.Version = 3
      · simp [hv, hm3.symm]
      · simp [hv, ← hm3]
    · rw [if_neg hm3]
      have hm3' : ¬ p.Magic = [77, 81, 73, 115, 100, 112] := fun h => hm3 h.symm
      simp [hm', hm3']

/-- C15 (evaluated at the failing input): a CONNECT with magic "MQTT" and version 3, which
checkVersion rejects, arrives on a connection as NewMyConnection makes it.  The first
conn.Close() of Handshake returns, and with it the write loop; the second conn.Close()
then never returns: Handshake stays stuck in it, with the connection closed and nothing
enqueued, and does not return to its caller. -/
theorem C15_rejected_connect_never_returns :
    (checkVersion connectWrongVersion).isSome = true ∧
      Handshake.prepare connectWrongVersion (NewMyConnection 1) =
        Prepared.blocked
          { NewMyConnection 1 with State := State.CLOSED, ClosedSignals := 1 } ∧
      Handshake noFlags 5 NewMomonga connectWrongVersion (NewMyConnection 1) = none := by
  decide

/-- C16: on a connection whose Connected flag is already true, Handshake returns nil with
the connection closed and nothing else changed: the engine (and its session table) is the
same, no packet is enqueued, and the will and the clean-session flag are as before. -/
theorem C16_second_connect_closes_and_returns_nil (flags : Flags) (newGUID : Nat)
    (self : Engine) (p : ConnectMessage) (conn : MyConnection)
    (hconn : conn.Connected = true) :
    Handshake flags newGUID self p conn = some (self, conn.Close, none) ∧
      conn.Close.State = State.CLOSED ∧ conn.Close.Queue = conn.Queue ∧
      conn.Close.WillMessage = conn.WillMessage ∧
      conn.Close.CleanSession = conn.CleanSession := by
  refine ⟨?_, rfl, rfl, rfl, rfl⟩
  unfold Handshake
  rw [if_pos hconn]

theorem C16_witness :
    Handshake noFlags 5 NewMomonga (connectOf "a" true) connWithWill =
        some (NewMomonga, connWithWill.Close, none) ∧
      connWithWill.Close.State = State.CLOSED ∧ connWithWill.Close.Queue = connWithWill.Queue ∧
      connWithWill.Close.WillMessage = connWithWill.WillMessage ∧
      connWithWill.Close.CleanSession = connWithWill.CleanSession :=
  C16_second_connect_closes_and_returns_nil noFlags 5 NewMomonga (connectOf "a" true)
    connWithWill rfl

/-! ## PUBCOMP codec and connection handlers: theorems -/

/-- C17: for a PubcompMessage with packet identifier p ≤ 65535, encode returns the two
bytes [p / 256, p % 256] with length 2 and no error, and decode on a reader holding those
two bytes sets PacketIdentifier to p (consuming both bytes, returning no error). -/
theorem C17_pubcomp_encode_decode_roundtrip (self : PubcompMessage)
    (hp : self.PacketIdentifier ≤ 65535) :
    self.encode = ([self.PacketIdentifier / 256, self.PacketIdentifier % 256], 2, none) ∧
      ∀ m : PubcompMessage,
        m.decode [self.PacketIdentifier / 256, self.PacketIdentifier % 256] =
          ({ m with PacketIdentifier := self.PacketIdentifier }, [], none) := by
  constructor
  · unfold PubcompMessage.encode bigEndianUint16
    have : self.PacketIdentifier / 256 % 256 = self.PacketIdentifier / 256 := by omega
    rw [this]
  · intro m
    unfold PubcompMessage.decode
    have : self.PacketIdentifier / 256 % 256 * 256 + self.PacketIdentifier % 256 % 256 =
        self.PacketIdentifier := by omega
    simp only [this]

theorem C17_witness :
    PubcompMessage.encode
        { FixedHeader := { PacketType := 7, Flags := 0, RemainingLength := 2 },
          PacketIdentifier := 4660 } = ([4660 / 256, 4660 % 256], 2, none) ∧
      ∀ m : PubcompMessage,
        m.decode [4660 / 256, 4660 % 256] = ({ m with PacketIdentifier := 4660 }, [], none) :=
  C17_pubcomp_encode_decode_roundtrip
    { FixedHeader := { PacketType := 7, Flags := 0, RemainingLength := 2 },
      PacketIdentifier := 4660 } (by decide)

/-- C18: the default handlers change the outbound queue as the dispatch table says and
leave the rest of the connection as it was (the inflight table apart, which PUBACK, PUBREL
and PUBCOMP unref): a qos 1 PUBLISH adds one PUBACK and a qos 2 PUBLISH one PUBREC with the
identifier of the PUBLISH, a PUBREC adds one PUBREL and a PUBREL one PUBCOMP with the
incoming identifier, and a qos 0 PUBLISH, a PUBACK and a PUBCOMP add nothing. -/
theorem C18_default_handlers_enqueue_prescribed_reply (c : MyConnection)
    (msg : PublishMessage) (id : Nat) :
    c.onPublish { msg with QosLevel := 1 } =
        { c with Queue := c.Queue ++ [Message.puback msg.PacketIdentifier] } ∧
    c.onPublish { msg with QosLevel := 2 } =
        { c with Queue := c.Queue ++ [Message.pubrec msg.PacketIdentifier] } ∧
    c.onPublish { msg with QosLevel := 0 } = c ∧
    c.onPubrec id = { c with Queue := c.Queue ++ [Message.pubrel id] } ∧
    (c.onPubrel id).Queue = c.Queue ++ [Message.pubcomp id] ∧
    (c.onPuback id).Queue = c.Queue ∧
    (c.onPubcomp id).Queue = c.Queue := by
  refine ⟨?_, ?_, ?_, rfl, rfl, rfl, rfl⟩ <;>
    simp [MyConnection.onPublish, MyConnection.WriteMessageQueue]

/-- C19 (evaluated at the failing input): the write loop has registered an outbound qos 1
PUBLISH under the identifier 1.  An inbound qos 2 PUBLISH with the identifier 1 registers
nothing (the table is unchanged, only a PUBREC is enqueued), and the inbound PUBREL(1) that
follows unrefs the entry of the outbound PUBLISH, which leaves the table. -/
theorem C19_pubrel_unrefs_outbound_entry :
    afterOutboundPublish.map (fun c => c.InflightTable.Hash.map Prod.fst) = some [1] ∧
    afterOutboundPublish.map
        (fun c => decide ((c.onPublish inboundQos2).InflightTable = c.InflightTable)) =
      some true ∧
    afterOutboundPublish.map
        (fun c => ((c.onPublish inboundQos2).onPubrel 1).InflightTable.Hash) = some [] := by
  decide

/-- C20 (evaluated at the failing input): with a keep-alive of 1 second the read deadline
is set 1 second (1 000 000 000 ns) after Last, not 1.5 seconds; with 3 seconds it is set
4 seconds after Last, not 4.5. -/
theorem C20_read_deadline_drops_half_second :
    ({ NewMyConnection 1 with Keepalive := 1 }).readDeadline 0 = some 1000000000 ∧
    ({ NewMyConnection 1 with Keepalive := 3 }).readDeadline 0 = some 4000000000 := by
  decide

/-! ## Write loop and offline queue: theorems -/

/-- C21 (counterexample): in state CLOSED the write loop parks a PINGREQ, a packet that is
not a PUBLISH, on the offline queue; and in state CONNECTING, a state that is not
CONNECTED, it parks nothing: the PUBLISH it draws is written to the stream. -/
theorem C21_counterexample_pingreq_parked_connecting_written :
    (MyConnection.writeLoop [Message.pingreq]
        { NewMyConnection 1 with State := State.CLOSED }).map (fun c => c.OfflineQueue) =
      some [Message.pingreq] ∧
    (MyConnection.writeLoop [publishOnT]
        { NewMyConnection 1 with State := State.CONNECTING }).map
        (fun c => (c.OfflineQueue, c.Written)) =
      some ([], [publishOnT]) := by
  decide

/-- While the state is neither CONNECTED nor CONNECTING the write loop appends every
packet it draws to the offline queue and changes nothing else. -/
theorem MyConnection.writeLoop_parks (c : MyConnection) (msgs : List Message)
    (h1 : c.State ≠ State.CONNECTED) (h2 : c.State ≠ State.CONNECTING) :
    MyConnection.writeLoop msgs c = some { c with OfflineQueue := c.OfflineQueue ++ msgs } := by
  induction msgs generalizing c with
  | nil => simp [MyConnection.writeLoop]
  | cons m rest ih =>
    have hstep : c.writeLoopStep m = some { c with OfflineQueue := c.OfflineQueue ++ [m] } := by
      unfold MyConnection.writeLoopStep
      rw [if_neg (by simp [h1, h2])]
    have hrest := ih { c with OfflineQueue := c.OfflineQueue ++ [m] } h1 h2
    rw [MyConnection.writeLoop, hstep]
    simp only
    rw [hrest]
    simp [List.append_assoc]

/-- C21 (as amended): for every sequence of packets that the write loop draws while the
state is neither CONNECTED nor CONNECTING, and as long as the offline queue stays within
MaxOfflineQueue, the loop returns and the offline queue afterwards is the offline queue
before followed by exactly the packets drawn, PUBLISH or not, in arrival order; nothing
else of the connection changes. -/
theorem C21_offline_queue_parks_every_packet_in_order (c : MyConnection)
    (msgs : List Message) (h1 : c.State ≠ State.CONNECTED) (h2 : c.State ≠ State.CONNECTING)
    (hbound : c.OfflineQueue.length + msgs.length ≤ c.MaxOfflineQueue) :
    MyConnection.writeLoop msgs c = some { c with OfflineQueue := c.OfflineQueue ++ msgs } := by
  have _ := hbound
  exact MyConnection.writeLoop_parks c msgs h1 h2

theorem C21_witness :
    MyConnection.writeLoop [publishOnT, Message.pingreq, publishOnT]
        { NewMyConnection 1 with State := State.CLOSED } =
      some { ({ NewMyConnection 1 with State := State.CLOSED } : MyConnection) with
        OfflineQueue :=
          ({ NewMyConnection 1 with State := State.CLOSED } : MyConnection).OfflineQueue ++
            [publishOnT, Message.pingreq, publishOnT] } :=
  C21_offline_queue_parks_every_packet_in_order
    { NewMyConnection 1 with State := State.CLOSED }
    [publishOnT, Message.pingreq, publishOnT] (by decide) (by decide) (by decide)

/-! ## Empty filter and PUBCOMP decoding: theorems -/

/-- C22 (evaluated at the failing input): for the empty filter RetainMatch reaches
`orig[0:1]` on a string of length 0 and panics instead of returning a list, and a
SUBSCRIBE whose payload names the empty filter takes Subscribe into that panic. -/
theorem C22_empty_filter_reaches_slice_and_panics :
    RetainMatch goRegexp NewDatastore "" = none ∧
    Subscribe goRegexp noFlags NewMomonga (subscribeTo 1 "" 0) sessionC = none := by
  decide

/-- C23: PubcompMessage.decode returns a nil error for every reader, and when the reader
holds fewer than two bytes the message is the same after the call, PacketIdentifier
included. -/
theorem C23_decode_returns_nil_and_keeps_identifier (self : PubcompMessage)
    (reader : List Nat) :
    (self.decode reader).2.2 = none ∧
      (reader.length < 2 → (self.decode reader).1 = self) := by
  cases reader with
  | nil => exact ⟨rfl, fun _ => rfl⟩
  | cons b0 t =>
    cases t with
    | nil => exact ⟨rfl, fun _ => rfl⟩
    | cons b1 rest =>
      refine ⟨rfl, fun h => ?_⟩
      simp only [List.length_cons] at h
      omega

theorem C23_witness :
    (PubcompMessage.decode
        { FixedHeader := { PacketType := 7, Flags := 0, RemainingLength := 2 },
          PacketIdentifier := 4660 } [18]).2.2 = none ∧
      (PubcompMessage.decode
        { FixedHeader := { PacketType := 7, Flags := 0, RemainingLength := 2 },
          PacketIdentifier := 4660 } [18]).1 =
        { FixedHeader := { PacketType := 7, Flags := 0, RemainingLength := 2 },
          PacketIdentifier := 4660 } :=
  ⟨(C23_decode_returns_nil_and_keeps_identifier
      { FixedHeader := { PacketType := 7, Flags := 0, RemainingLength := 2 },
        PacketIdentifier := 4660 } [18]).1,
    (C23_decode_returns_nil_and_keeps_identifier
      { FixedHeader := { PacketType := 7, Flags := 0, RemainingLength := 2 },
        PacketIdentifier := 4660 } [18]).2 (by decide)⟩

end Momonga
